import Mathlib

/-!
Verification development for the QasT language core: a shallow embedding of
the tokenizer (src/lib/lexer.js), the recursive-descent parser
(src/lib/parser.js) and the tree-walking evaluator (src/lib/runtime.js),
together with theorems settling the frozen specification claims.

Modelling conventions:
* Host numbers (JS doubles) are modelled as exact rationals extended with
  NaN and the two infinities.  All numeric computations appearing in the
  claims involve small integers, where double arithmetic is exact, so the
  rational model coincides with the host behaviour on every input used in a
  theorem, witness or counterexample below.
* Host strings are Lean strings (sequences of Unicode scalar values).  The
  JS code-unit view differs only outside the Basic Multilingual Plane,
  which no claim touches.
* Fallible host code is modelled with Except.  Conditions on which the host
  would throw a TypeError (rather than a structured QastError) are modelled
  as a distinct host-error constructor.
* The host console output is modelled as a list of printed values; trace
  diagnostics are collected on a separate list (their interleaving with
  output is not the subject of any claim).
-/

namespace QasT

/-- JsNumber models a JS double as an exact rational, NaN, or an infinity. -/
inductive JsNumber where
  | rat (q : ℚ)
  | posInf
  | negInf
  | nan
deriving DecidableEq, Repr

namespace JsNumber

/-- Negation, as the JS unary minus on numbers. -/
def neg : JsNumber → JsNumber
  | rat q => rat (-q)
  | posInf => negInf
  | negInf => posInf
  | nan => nan

/-- Addition of JS numbers. -/
def add : JsNumber → JsNumber → JsNumber
  | rat a, rat b => rat (a + b)
  | rat _, posInf => posInf
  | rat _, negInf => negInf
  | posInf, rat _ => posInf
  | negInf, rat _ => negInf
  | posInf, posInf => posInf
  | negInf, negInf => negInf
  | posInf, negInf => nan
  | negInf, posInf => nan
  | _, _ => nan

/-- Subtraction of JS numbers. -/
def sub (a b : JsNumber) : JsNumber := add a (neg b)

/-- Multiplication of JS numbers. -/
def mul : JsNumber → JsNumber → JsNumber
  | rat a, rat b => rat (a * b)
  | rat a, posInf => if a = 0 then nan else if a > 0 then posInf else negInf
  | rat a, negInf => if a = 0 then nan else if a > 0 then negInf else posInf
  | posInf, rat b => if b = 0 then nan else if b > 0 then posInf else negInf
  | negInf, rat b => if b = 0 then nan else if b > 0 then negInf else posInf
  | posInf, posInf => posInf
  | negInf, negInf => posInf
  | posInf, negInf => negInf
  | negInf, posInf => negInf
  | _, _ => nan

/-- Division of JS numbers (division by zero yields a signed infinity). -/
def div : JsNumber → JsNumber → JsNumber
  | rat a, rat b =>
      if b = 0 then
        if a = 0 then nan else if a > 0 then posInf else negInf
      else rat (a / b)
  | rat _, posInf => rat 0
  | rat _, negInf => rat 0
  | posInf, rat b => if b ≥ 0 then posInf else negInf
  | negInf, rat b => if b ≥ 0 then negInf else posInf
  | _, _ => nan

/-- Truncation of a rational toward zero. -/
def ratTrunc (q : ℚ) : Int := Int.tdiv q.num (q.den : Int)

/-- Remainder, as the JS binary percent operator (sign of the dividend). -/
def modJ : JsNumber → JsNumber → JsNumber
  | rat a, rat b =>
      if b = 0 then nan else rat (a - b * (ratTrunc (a / b) : ℚ))
  | rat a, posInf => rat a
  | rat a, negInf => rat a
  | _, _ => nan

/-- Strict less-than on JS numbers; any comparison with NaN is false. -/
def ltB : JsNumber → JsNumber → Bool
  | rat a, rat b => decide (a < b)
  | rat _, posInf => true
  | rat _, negInf => false
  | posInf, rat _ => false
  | negInf, rat _ => true
  | negInf, posInf => true
  | posInf, negInf => false
  | posInf, posInf => false
  | negInf, negInf => false
  | _, _ => false

/-- Less-or-equal on JS numbers; any comparison with NaN is false. -/
def leB : JsNumber → JsNumber → Bool
  | rat a, rat b => decide (a ≤ b)
  | rat _, posInf => true
  | rat _, negInf => false
  | posInf, rat _ => false
  | negInf, rat _ => true
  | negInf, posInf => true
  | posInf, negInf => false
  | posInf, posInf => true
  | negInf, negInf => true
  | _, _ => false

/-- Strict equality on JS numbers: NaN is not equal to itself. -/
def seqB : JsNumber → JsNumber → Bool
  | rat a, rat b => decide (a = b)
  | posInf, posInf => true
  | negInf, negInf => true
  | _, _ => false

end JsNumber

/-- QastError is the structured error class of src/lib/lexer.js.  Its
instance fields are message, file, line, column and hint; file is optional
because the runtime raises errors whose file slot reads an absent property
(the host value undefined).  The constant class fields (name, isQastError)
carry no information and are not modelled. -/
structure QastError where
  message : String
  file : Option String
  line : Nat
  column : Nat
  hint : Option String
deriving DecidableEq, Repr

/-- ErrKind is the error taxonomy named by the specification.  It is a
specification-side notion used to state claims about error classification;
the code itself never stores such a value. -/
inductive ErrKind where
  | HeaderError
  | PrefixError
  | LexError
  | ParseError
  | RuntimeError
deriving DecidableEq, Repr

/-- Reading the kind property of a QastError instance.  The class declares
no such field and no constructor argument fills one, so the host property
access yields the absent value on every instance; this accessor is its
faithful image. -/
def QastError.kindField (_ : QastError) : Option ErrKind := none

/-- Token types: the literal and structural kinds plus one kind per
reserved keyword (the uppercased keyword text), as produced by
keywordOrIdent in src/lib/lexer.js. -/
inductive TokType where
  | NUMBER
  | STRING
  | IDENT
  | OP
  | EOF
  | PRINT
  | SET
  | INPUT
  | IF
  | ELIF
  | ELSE
  | END
  | LOOP
  | WHILE
  | FN
  | RETURN
deriving DecidableEq, Repr

/-- Token payloads: a number for NUMBER tokens, a string for STRING, IDENT,
keyword and OP tokens, and null for the EOF token. -/
inductive TokValue where
  | num (n : JsNumber)
  | str (s : String)
  | null
deriving DecidableEq, Repr

/-- Token record, mirroring the objects pushed by lex in src/lib/lexer.js. -/
structure Token where
  type : TokType
  value : TokValue
  line : Nat
  column : Nat
  file : String
deriving DecidableEq, Repr

/-! Tokenizer (src/lib/lexer.js).  String manipulation is written over
character lists with structural recursion throughout, so that every
concrete computation below reduces inside the kernel. -/

/-- Whitespace test used for the regex backslash-s class and for trim. -/
def isJsSpace (c : Char) : Bool := c.isWhitespace

/-- Starts-with test on character lists: the first argument is the text,
the second the lead to test for. -/
def hasLead : List Char → List Char → Bool
  | _, [] => true
  | [], _ :: _ => false
  | c :: cs, p :: ps => c = p && hasLead cs ps

/-- Starts-with on strings. -/
def strHasLead (s lead : String) : Bool := hasLead s.data lead.data

/-- Trim on character lists: strip whitespace from both ends, as the host
trim. -/
def jsTrimChars (l : List Char) : List Char :=
  ((l.dropWhile isJsSpace).reverse.dropWhile isJsSpace).reverse

/-- Trim on strings. -/
def jsTrim (s : String) : String := String.mk (jsTrimChars s.data)

/-- Removing one trailing carriage return from a line segment. -/
def dropCR (l : List Char) : List Char :=
  if l.getLast? = some '\r' then l.dropLast else l

/-- Splitting a character list at every newline. -/
def splitNlAux : List Char → List Char → List (List Char)
  | [], acc => [acc.reverse]
  | c :: rest, acc =>
    if c = '\n' then acc.reverse :: splitNlAux rest []
    else splitNlAux rest (c :: acc)

/-- Splitting a source text on newline or carriage-return-newline, as the
split regex at the top of lex does: split at each newline, then drop one
carriage return at the end of each piece (a carriage return not followed
by a newline is not a separator). -/
def splitLines (src : String) : List String :=
  ((splitNlAux src.data []).map dropCR).map String.mk

/-- Count of leading whitespace characters of a raw line; for a line with
nonempty trimmed content this is where indexOf finds the trimmed text,
since the trimmed content starts with a non-space character. -/
def leadWs (raw : String) : Nat := (raw.data.takeWhile isJsSpace).length

/-- Scanning a string literal body after its opening quote (readString in
src/lib/lexer.js).  Returns the decoded value and the number of characters
consumed including the closing quote, or none when the literal is
unterminated.  A backslash decodes n and t specially and otherwise yields
the following character verbatim. -/
def readStringBody (quote : Char) : List Char → Option (List Char × Nat)
  | [] => none
  | c :: rest =>
    if c = '\\' then
      match rest with
      | [] => none
      | n :: rest2 =>
        let d := if n = 'n' then '\n' else if n = 't' then '\t' else n
        match readStringBody quote rest2 with
        | none => none
        | some (v, k) => some (d :: v, k + 2)
    else if c = quote then some ([], 1)
    else
      match readStringBody quote rest with
      | none => none
      | some (v, k) => some (c :: v, k + 1)

/-- Character class for the numeric scanner: digits and the dot. -/
def isNumChar (c : Char) : Bool := c.isDigit || c = '.'

/-- Character class opening an identifier. -/
def isIdentStart (c : Char) : Bool := c.isAlpha || c = '_'

/-- Character class continuing an identifier. -/
def isIdentChar (c : Char) : Bool := c.isAlpha || c.isDigit || c = '_'

/-- Digits to a natural number. -/
def digitsToNat (ds : List Char) : Nat :=
  ds.foldl (fun acc c => acc * 10 + (c.toNat - '0'.toNat)) 0

/-- Value of a scanned numeric literal, as the host Number conversion on a
string of digits and dots that starts with a digit: no dot or one dot give
the exact decimal value (a trailing dot is allowed); two or more dots give
NaN. -/
def parseDecimal (raw : List Char) : JsNumber :=
  let intPart := raw.takeWhile (fun c => c ≠ '.')
  let rest := raw.dropWhile (fun c => c ≠ '.')
  match rest with
  | [] => JsNumber.rat (digitsToNat raw)
  | _ :: frac =>
    if frac.contains '.' then JsNumber.nan
    else
      JsNumber.rat ((digitsToNat intPart : ℚ) +
        (digitsToNat frac : ℚ) / ((10 : ℚ) ^ frac.length))

/-- Reserved keyword set of the language. -/
def keywordType : String → Option TokType
  | "print" => some TokType.PRINT
  | "set" => some TokType.SET
  | "input" => some TokType.INPUT
  | "if" => some TokType.IF
  | "elif" => some TokType.ELIF
  | "else" => some TokType.ELSE
  | "end" => some TokType.END
  | "loop" => some TokType.LOOP
  | "while" => some TokType.WHILE
  | "fn" => some TokType.FN
  | "return" => some TokType.RETURN
  | _ => none

/-- KeywordOrIdent: keywords map to their uppercased token type, everything
else is IDENT. -/
def keywordOrIdent (s : String) : TokType :=
  match keywordType s with
  | some t => t
  | none => TokType.IDENT

/-- Two-character operator test tried first by the statement tokenizer. -/
def isTwoCharOp (two : String) : Bool :=
  two = "==" || two = "!=" || two = ">=" || two = "<=" || two = "&&" || two = "||"

/-- Single-character operator and punctuation set. -/
def singleOpChars : List Char := "+-*/%><=()\x7b\x7d[],.".data

/-- Message of the unexpected-character error. -/
def unexpectedCharMsg (c : Char) : String :=
  "Unexpected character \x27" ++ String.singleton c ++ "\x27"

/-- Message of the unterminated-string error. -/
def untermMsg : String := "Unterminated string literal"

/-- Internal marker for exhausted fuel.  The statement tokenizer below is
driven by a fuel counter only to give Lean a simple termination argument;
every loop iteration of the source consumes at least one character, so a
fuel of one more than the character count can never run out, and this error
is unreachable on the calls made by lexLines. -/
def fuelMsg : String := "INTERNAL fuel exhausted"

/-- The statement tokenizer (tokenizeStatement in src/lib/lexer.js),
scanning the post-prefix substring left to right.  The column argument is
the 1-based position of the current character inside the substring. -/
def tokStmt (file : String) (line : Nat) : Nat → List Char → Nat →
    Except QastError (List Token)
  | 0, _, _ => Except.error ⟨fuelMsg, some file, line, 0, none⟩
  | _ + 1, [], _ => Except.ok []
  | f + 1, c :: rest, col =>
    if isJsSpace c then tokStmt file line f rest (col + 1)
    else if c = '"' || c = Char.ofNat 39 then
      match readStringBody c rest with
      | none => Except.error ⟨untermMsg, some file, line, col, none⟩
      | some (v, k) =>
        match tokStmt file line f (rest.drop k) (col + 1 + k) with
        | Except.error e => Except.error e
        | Except.ok ts =>
          Except.ok (⟨TokType.STRING, TokValue.str (String.mk v), line, col, file⟩ :: ts)
    else if c.isDigit then
      let ds := rest.takeWhile isNumChar
      match tokStmt file line f (rest.drop ds.length) (col + 1 + ds.length) with
      | Except.error e => Except.error e
      | Except.ok ts =>
        Except.ok (⟨TokType.NUMBER, TokValue.num (parseDecimal (c :: ds)), line, col, file⟩ :: ts)
    else if isIdentStart c then
      let ds := rest.takeWhile isIdentChar
      let word := String.mk (c :: ds)
      match tokStmt file line f (rest.drop ds.length) (col + 1 + ds.length) with
      | Except.error e => Except.error e
      | Except.ok ts =>
        Except.ok (⟨keywordOrIdent word, TokValue.str word, line, col, file⟩ :: ts)
    else
      match rest with
      | d :: rest2 =>
        let two := String.mk [c, d]
        if isTwoCharOp two then
          match tokStmt file line f rest2 (col + 2) with
          | Except.error e => Except.error e
          | Except.ok ts =>
            Except.ok (⟨TokType.OP, TokValue.str two, line, col, file⟩ :: ts)
        else if singleOpChars.contains c then
          match tokStmt file line f rest (col + 1) with
          | Except.error e => Except.error e
          | Except.ok ts =>
            Except.ok (⟨TokType.OP, TokValue.str (String.singleton c), line, col, file⟩ :: ts)
        else Except.error ⟨unexpectedCharMsg c, some file, line, col, none⟩
      | [] =>
        if singleOpChars.contains c then
          match tokStmt file line f rest (col + 1) with
          | Except.error e => Except.error e
          | Except.ok ts =>
            Except.ok (⟨TokType.OP, TokValue.str (String.singleton c), line, col, file⟩ :: ts)
        else Except.error ⟨unexpectedCharMsg c, some file, line, col, none⟩

/-- Header error message and hint. -/
def headerMsg : String := "Missing QasT header (new qas)."

/-- Header error hint text. -/
def headerHint : String := "First non-empty line must be: new qas"

/-- Prefix error message. -/
def prefixErrMsg : String := "Executable lines must start with \x27q.\x27."

/-- The header error value raised at 1-based line i. -/
def headerErrorAt (file : String) (i : Nat) : QastError :=
  ⟨headerMsg, some file, i, 1, some headerHint⟩

/-- The per-line loop of lex: idx is the 0-based index of the first line of
the remaining list, header records whether the header line has been seen.
Returns the tokens of all remaining lines (without the trailing EOF). -/
def lexLines (file : String) : List String → Nat → Bool →
    Except QastError (List Token)
  | [], _, _ => Except.ok []
  | raw :: rest, idx, header =>
    let lineNum := idx + 1
    let trimmed := jsTrim raw
    if trimmed = "" then lexLines file rest (idx + 1) header
    else if strHasLead trimmed "#" then lexLines file rest (idx + 1) header
    else if header = false then
      if strHasLead trimmed "new qas" = false then
        Except.error (headerErrorAt file lineNum)
      else lexLines file rest (idx + 1) true
    else if strHasLead trimmed "q." = false then
      Except.error ⟨prefixErrMsg, some file, lineNum, leadWs raw + 1, none⟩
    else
      let stmt := (raw.data.dropWhile isJsSpace).drop 2
      match tokStmt file lineNum (stmt.length + 1) stmt 1 with
      | Except.error e => Except.error e
      | Except.ok ts =>
        match lexLines file rest (idx + 1) true with
        | Except.error e => Except.error e
        | Except.ok ts2 => Except.ok (ts ++ ts2)

/-- The tokenizer entry point (lex in src/lib/lexer.js): processes the
lines and appends the single EOF token at the line count of the source,
column 1. -/
def lex (source : String) (file : String) : Except QastError (List Token) :=
  let lines := splitLines source
  match lexLines file lines 0 false with
  | Except.error e => Except.error e
  | Except.ok ts =>
    Except.ok (ts ++ [⟨TokType.EOF, TokValue.null, lines.length, 1, file⟩])

/-- Specification-side scan for the first effective line: the first line
whose trimmed content is non-empty and does not start with the comment
mark.  The second argument is the 1-based number of the first line in the
list; the result pairs the line number with the trimmed content. -/
def firstEffectiveAux : List String → Nat → Option (Nat × String)
  | [], _ => none
  | raw :: rest, n =>
    let t := jsTrim raw
    if t = "" then firstEffectiveAux rest (n + 1)
    else if strHasLead t "#" then firstEffectiveAux rest (n + 1)
    else some (n, t)

/-- First effective line of a source text, 1-based. -/
def firstEffective (src : String) : Option (Nat × String) :=
  firstEffectiveAux (splitLines src) 1

/-! Abstract syntax (src/lib/parser.js). -/

/-- Source position: 1-based line and column. -/
structure Pos where
  line : Nat
  column : Nat
deriving DecidableEq, Repr

/-- Source span attached to every node.  The source field names are start
and end; end is a reserved word here, so the second field is named stop. -/
structure Loc where
  start : Pos
  stop : Pos
deriving DecidableEq, Repr

/-- Expression nodes. -/
inductive Expr where
  | numberLit (value : JsNumber) (loc : Loc)
  | stringLit (value : String) (loc : Loc)
  | ident (name : String) (loc : Loc)
  | unary (operator : String) (argument : Expr) (loc : Loc)
  | binary (operator : String) (left : Expr) (right : Expr) (loc : Loc)
  | grouping (expression : Expr) (loc : Loc)
deriving DecidableEq, Repr

/-- The loc of an expression node. -/
def Expr.loc : Expr → Loc
  | numberLit _ l => l
  | stringLit _ l => l
  | ident _ l => l
  | unary _ _ l => l
  | binary _ _ _ l => l
  | grouping _ l => l

/-- Statement nodes.  The tests list of ifS pairs each test with its
consequent statement list, and the body lists of the control statements are
present in the data model; the parser only ever builds them empty (and the
alternate of ifS null), which the claims about no-op evaluation rely on. -/
inductive Stmt where
  | printS (argument : Expr) (loc : Loc)
  | setS (name : String) (value : Expr) (loc : Loc)
  | inputS (name : String) (prompt : Option String) (loc : Loc)
  | exprS (expr : Expr) (loc : Loc)
  | returnS (argument : Option Expr) (loc : Loc)
  | ifS (tests : List (Expr × List Stmt)) (alternate : Option Unit) (loc : Loc)
  | loopS (count : Expr) (body : List Stmt) (loc : Loc)
  | whileS (test : Expr) (body : List Stmt) (loc : Loc)
  | fnDef (name : String) (params : List String) (body : List Stmt) (loc : Loc)

/-- Program node: the single parser output. -/
structure Program where
  body : List Stmt

/-- Start position of a token. -/
def tokPos (t : Token) : Pos := ⟨t.line, t.column⟩

/-- The locFrom helper of the parser when both recorded nodes are bare
tokens, or when there is no end node: tokens carry no loc property, so the
end component falls back to the start component. -/
def locFromTok (t : Token) : Loc := ⟨tokPos t, tokPos t⟩

/-- The locFrom helper when the start node is a token and the end node is
an expression (which carries a loc). -/
def locFromTokExpr (t : Token) (e : Expr) : Loc := ⟨tokPos t, e.loc.stop⟩

/-- The locFrom helper when both nodes are expressions. -/
def locFromExprExpr (a b : Expr) : Loc := ⟨a.loc.start, b.loc.stop⟩

/-- The locFrom helper with a single expression argument and no end node:
the end component falls back to the start component. -/
def locFromExpr (a : Expr) : Loc := ⟨a.loc.start, a.loc.start⟩

/-! Parser (src/lib/parser.js).  The parser is embedded as a family of
functions threading the cursor position; ParserM is the shape of one
parsing step.  Recursion is driven by a fuel counter to give Lean a
termination argument; the entry point supplies fuel that can only be
exhausted where the source itself would loop forever (which can happen only
on token lists that are not tokenizer output, for instance lists without a
final EOF, whose last token the cursor fallback in peek replays
indefinitely). -/

/-- One parsing step: from a cursor position, an error or a value and the
new position. -/
def ParserM (α : Type) : Type := Nat → Except QastError (α × Nat)

/-- Parser-step unit. -/
def pPure (a : α) : ParserM α := fun pos => Except.ok (a, pos)

/-- Parser-step sequencing. -/
def pBind (m : ParserM α) (g : α → ParserM β) : ParserM β := fun pos =>
  match m pos with
  | Except.error e => Except.error e
  | Except.ok (a, pos2) => g a pos2

instance : Monad ParserM where
  pure := pPure
  bind := pBind

/-- A failing parsing step. -/
def pThrow (e : QastError) : ParserM α := fun _ => Except.error e

/-- The token the cursor looks at: tokens at the position, with the source
fallback to the last token of the list when the position is past the end.
The result is none only for an empty token list, on which the source would
crash dereferencing undefined. -/
def peekRaw (toks : List Token) (pos : Nat) : Option Token :=
  match toks.get? pos with
  | some t => some t
  | none => toks.getLast?

/-- Internal error standing for the host crash on an empty token list. -/
def emptyToksErr (file : String) : QastError :=
  ⟨"INTERNAL empty token list", some file, 0, 0, none⟩

/-- Internal error standing for a non-terminating source-level parse. -/
def fuelParseErr (file : String) : QastError :=
  ⟨fuelMsg, some file, 0, 0, none⟩

/-- Peek: reads the current token without advancing. -/
def peekT (toks : List Token) (file : String) : ParserM Token := fun pos =>
  match peekRaw toks pos with
  | none => Except.error (emptyToksErr file)
  | some t => Except.ok (t, pos)

/-- Rendering of a token type name for the expected-token message. -/
def tokTypeName : TokType → String
  | TokType.NUMBER => "NUMBER"
  | TokType.STRING => "STRING"
  | TokType.IDENT => "IDENT"
  | TokType.OP => "OP"
  | TokType.EOF => "EOF"
  | TokType.PRINT => "PRINT"
  | TokType.SET => "SET"
  | TokType.INPUT => "INPUT"
  | TokType.IF => "IF"
  | TokType.ELIF => "ELIF"
  | TokType.ELSE => "ELSE"
  | TokType.END => "END"
  | TokType.LOOP => "LOOP"
  | TokType.WHILE => "WHILE"
  | TokType.FN => "FN"
  | TokType.RETURN => "RETURN"

/-- Rendering of a token value in messages; null renders as the empty
string via the nullish fallback in the source. -/
def tokValueText : TokValue → String
  | TokValue.num (JsNumber.rat q) =>
      if q.den = 1 then toString q.num else toString q
  | TokValue.num JsNumber.posInf => "Infinity"
  | TokValue.num JsNumber.negInf => "-Infinity"
  | TokValue.num JsNumber.nan => "NaN"
  | TokValue.str s => s
  | TokValue.null => ""

/-- Expected-token message of consume. -/
def expectedMsg (ty : TokType) (v : Option TokValue) (found : Token) : String :=
  let expected :=
    match v with
    | none => tokTypeName ty
    | some w => tokTypeName ty ++ "(" ++ tokValueText w ++ ")"
  "Expected " ++ expected ++ " but found " ++ tokTypeName found.type ++ " " ++
    tokValueText found.value

/-- Consume: requires the current token to have the given type (and value,
when one is given), advances past it and returns it; otherwise raises a
parse error at the found token. -/
def consumeT (toks : List Token) (file : String) (ty : TokType)
    (v : Option TokValue) : ParserM Token := fun pos =>
  match peekRaw toks pos with
  | none => Except.error (emptyToksErr file)
  | some t =>
    if t.type = ty ∧ (∀ w ∈ v, t.value = w) then Except.ok (t, pos + 1)
    else Except.error ⟨expectedMsg ty v t, some file, t.line, t.column, none⟩

/-- Match: advances past the current token and returns it when it has the
given type and value, and otherwise stays put returning none.  The source
returns a boolean and call sites then read tokens at pos minus one, which
is exactly the returned token. -/
def matchT (toks : List Token) (file : String) (ty : TokType)
    (v : Option TokValue) : ParserM (Option Token) := fun pos =>
  match peekRaw toks pos with
  | none => Except.error (emptyToksErr file)
  | some t =>
    if t.type = ty ∧ (∀ w ∈ v, t.value = w) then Except.ok (some t, pos + 1)
    else Except.ok (none, pos)

/-- Reading tokens at pos minus one (the token consumed last). -/
def lastTok (toks : List Token) : ParserM (Option Token) := fun pos =>
  Except.ok (toks.get? (pos - 1), pos)

/-- An OP token value. -/
def opV (s : String) : Option TokValue := some (TokValue.str s)

/-- Payload of an IDENT, keyword or OP token as a string. -/
def asStr : TokValue → String
  | TokValue.str s => s
  | _ => ""

/-- Payload of a NUMBER token. -/
def asNum : TokValue → JsNumber
  | TokValue.num n => n
  | _ => JsNumber.nan

/-- Internal error standing for the host crash when locFrom dereferences an
absent token (possible only on token lists that are not tokenizer output). -/
def undefTokErr (file : String) : QastError :=
  ⟨"INTERNAL undefined token", some file, 0, 0, none⟩

mutual

/-- ParsePrimary: number, string and identifier literals and parenthesised
groupings; anything else is an unexpected-token parse error. -/
def parsePrimary (toks : List Token) (file : String) : Nat → ParserM Expr
  | 0 => pThrow (fuelParseErr file)
  | f + 1 => do
    let tok ← peekT toks file
    let m1 ← matchT toks file TokType.NUMBER none
    match m1 with
    | some _ => pure (Expr.numberLit (asNum tok.value) (locFromTok tok))
    | none => do
      let m2 ← matchT toks file TokType.STRING none
      match m2 with
      | some _ => pure (Expr.stringLit (asStr tok.value) (locFromTok tok))
      | none => do
        let m3 ← matchT toks file TokType.IDENT none
        match m3 with
        | some _ => pure (Expr.ident (asStr tok.value) (locFromTok tok))
        | none => do
          let m4 ← matchT toks file TokType.OP (opV "(")
          match m4 with
          | some _ => do
            let e ← parseExpression toks file f
            let _ ← consumeT toks file TokType.OP (opV ")")
            pure (Expr.grouping e (locFromTokExpr tok e))
          | none =>
            pThrow ⟨"Unexpected token " ++ tokTypeName tok.type, some file,
              tok.line, tok.column, none⟩

/-- ParseUnary: prefix bang and minus, recursively stackable; the start
node recorded in the loc is the token before the cursor after the operand
has been parsed, which is the last token of the operand, not the operator. -/
def parseUnary (toks : List Token) (file : String) : Nat → ParserM Expr
  | 0 => pThrow (fuelParseErr file)
  | f + 1 => do
    let m1 ← matchT toks file TokType.OP (opV "!")
    match m1 with
    | some t => do
      let right ← parseUnary toks file f
      let tp ← lastTok toks
      match tp with
      | none => pThrow (undefTokErr file)
      | some tpv =>
        pure (Expr.unary (asStr t.value) right (locFromTokExpr tpv right))
    | none => do
      let m2 ← matchT toks file TokType.OP (opV "-")
      match m2 with
      | some t => do
        let right ← parseUnary toks file f
        let tp ← lastTok toks
        match tp with
        | none => pThrow (undefTokErr file)
        | some tpv =>
          pure (Expr.unary (asStr t.value) right (locFromTokExpr tpv right))
      | none => parsePrimary toks file f

/-- Left-associative chaining loop of parseFactor. -/
def parseFactorLoop (toks : List Token) (file : String) :
    Nat → Expr → ParserM Expr
  | 0, _ => pThrow (fuelParseErr file)
  | f + 1, e => do
    let m1 ← matchT toks file TokType.OP (opV "*")
    match m1 with
    | some t => do
      let right ← parseUnary toks file f
      parseFactorLoop toks file f
        (Expr.binary (asStr t.value) e right (locFromExprExpr e right))
    | none => do
      let m2 ← matchT toks file TokType.OP (opV "/")
      match m2 with
      | some t => do
        let right ← parseUnary toks file f
        parseFactorLoop toks file f
          (Expr.binary (asStr t.value) e right (locFromExprExpr e right))
      | none => do
        let m3 ← matchT toks file TokType.OP (opV "%")
        match m3 with
        | some t => do
          let right ← parseUnary toks file f
          parseFactorLoop toks file f
            (Expr.binary (asStr t.value) e right (locFromExprExpr e right))
        | none => pure e

/-- ParseFactor: multiplicative level. -/
def parseFactor (toks : List Token) (file : String) : Nat → ParserM Expr
  | 0 => pThrow (fuelParseErr file)
  | f + 1 => do
    let e ← parseUnary toks file f
    parseFactorLoop toks file f e

/-- Left-associative chaining loop of parseTerm. -/
def parseTermLoop (toks : List Token) (file : String) :
    Nat → Expr → ParserM Expr
  | 0, _ => pThrow (fuelParseErr file)
  | f + 1, e => do
    let m1 ← matchT toks file TokType.OP (opV "+")
    match m1 with
    | some t => do
      let right ← parseFactor toks file f
      parseTermLoop toks file f
        (Expr.binary (asStr t.value) e right (locFromExprExpr e right))
    | none => do
      let m2 ← matchT toks file TokType.OP (opV "-")
      match m2 with
      | some t => do
        let right ← parseFactor toks file f
        parseTermLoop toks file f
          (Expr.binary (asStr t.value) e right (locFromExprExpr e right))
      | none => pure e

/-- ParseTerm: additive level. -/
def parseTerm (toks : List Token) (file : String) : Nat → ParserM Expr
  | 0 => pThrow (fuelParseErr file)
  | f + 1 => do
    let e ← parseFactor toks file f
    parseTermLoop toks file f e

/-- Left-associative chaining loop of parseComparison. -/
def parseComparisonLoop (toks : List Token) (file : String) :
    Nat → Expr → ParserM Expr
  | 0, _ => pThrow (fuelParseErr file)
  | f + 1, e => do
    let m1 ← matchT toks file TokType.OP (opV ">")
    match m1 with
    | some t => do
      let right ← parseTerm toks file f
      parseComparisonLoop toks file f
        (Expr.binary (asStr t.value) e right (locFromExprExpr e right))
    | none => do
      let m2 ← matchT toks file TokType.OP (opV "<")
      match m2 with
      | some t => do
        let right ← parseTerm toks file f
        parseComparisonLoop toks file f
          (Expr.binary (asStr t.value) e right (locFromExprExpr e right))
      | none => do
        let m3 ← matchT toks file TokType.OP (opV ">=")
        match m3 with
        | some t => do
          let right ← parseTerm toks file f
          parseComparisonLoop toks file f
            (Expr.binary (asStr t.value) e right (locFromExprExpr e right))
        | none => do
          let m4 ← matchT toks file TokType.OP (opV "<=")
          match m4 with
          | some t => do
            let right ← parseTerm toks file f
            parseComparisonLoop toks file f
              (Expr.binary (asStr t.value) e right (locFromExprExpr e right))
          | none => pure e

/-- ParseComparison: relational level. -/
def parseComparison (toks : List Token) (file : String) : Nat → ParserM Expr
  | 0 => pThrow (fuelParseErr file)
  | f + 1 => do
    let e ← parseTerm toks file f
    parseComparisonLoop toks file f e

/-- Left-associative chaining loop of parseEquality. -/
def parseEqualityLoop (toks : List Token) (file : String) :
    Nat → Expr → ParserM Expr
  | 0, _ => pThrow (fuelParseErr file)
  | f + 1, e => do
    let m1 ← matchT toks file TokType.OP (opV "==")
    match m1 with
    | some t => do
      let right ← parseComparison toks file f
      parseEqualityLoop toks file f
        (Expr.binary (asStr t.value) e right (locFromExprExpr e right))
    | none => do
      let m2 ← matchT toks file TokType.OP (opV "!=")
      match m2 with
      | some t => do
        let right ← parseComparison toks file f
        parseEqualityLoop toks file f
          (Expr.binary (asStr t.value) e right (locFromExprExpr e right))
      | none => pure e

/-- ParseEquality: equality level. -/
def parseEquality (toks : List Token) (file : String) : Nat → ParserM Expr
  | 0 => pThrow (fuelParseErr file)
  | f + 1 => do
    let e ← parseComparison toks file f
    parseEqualityLoop toks file f e

/-- ParseExpression: the lowest-precedence entry. -/
def parseExpression (toks : List Token) (file : String) : Nat → ParserM Expr
  | 0 => pThrow (fuelParseErr file)
  | f + 1 => parseEquality toks file f

end

mutual

/-- ParsePrint. -/
def parsePrint (toks : List Token) (file : String) : Nat → ParserM Stmt
  | 0 => pThrow (fuelParseErr file)
  | f + 1 => do
    let start ← consumeT toks file TokType.PRINT none
    let arg ← parseExpression toks file f
    pure (Stmt.printS arg (locFromTokExpr start arg))

/-- ParseSet. -/
def parseSet (toks : List Token) (file : String) : Nat → ParserM Stmt
  | 0 => pThrow (fuelParseErr file)
  | f + 1 => do
    let start ← consumeT toks file TokType.SET none
    let id ← consumeT toks file TokType.IDENT none
    let _ ← consumeT toks file TokType.OP (opV "=")
    let v ← parseExpression toks file f
    pure (Stmt.setS (asStr id.value) v (locFromTokExpr start v))

/-- ParseInput: the recorded end node is the identifier token, which has no
loc property, so the loc collapses to the start token position. -/
def parseInput (toks : List Token) (file : String) : Nat → ParserM Stmt
  | 0 => pThrow (fuelParseErr file)
  | _ + 1 => do
    let start ← consumeT toks file TokType.INPUT none
    let id ← consumeT toks file TokType.IDENT none
    let m ← matchT toks file TokType.STRING none
    let prompt := m.map (fun t => asStr t.value)
    pure (Stmt.inputS (asStr id.value) prompt (locFromTok start))

/-- ParseIf: one test expression and a required END; the consequent list is
built empty and the alternate null. -/
def parseIf (toks : List Token) (file : String) : Nat → ParserM Stmt
  | 0 => pThrow (fuelParseErr file)
  | f + 1 => do
    let start ← consumeT toks file TokType.IF none
    let t ← parseExpression toks file f
    let _ ← consumeT toks file TokType.END none
    pure (Stmt.ifS [(t, [])] none (locFromTokExpr start t))

/-- ParseLoop: a count expression and a required END; the body is built
empty. -/
def parseLoop (toks : List Token) (file : String) : Nat → ParserM Stmt
  | 0 => pThrow (fuelParseErr file)
  | f + 1 => do
    let start ← consumeT toks file TokType.LOOP none
    let t ← parseExpression toks file f
    let _ ← consumeT toks file TokType.END none
    pure (Stmt.loopS t [] (locFromTokExpr start t))

/-- ParseWhile: a test expression and a required END; the body is built
empty. -/
def parseWhile (toks : List Token) (file : String) : Nat → ParserM Stmt
  | 0 => pThrow (fuelParseErr file)
  | f + 1 => do
    let start ← consumeT toks file TokType.WHILE none
    let t ← parseExpression toks file f
    let _ ← consumeT toks file TokType.END none
    pure (Stmt.whileS t [] (locFromTokExpr start t))

/-- Parameter-collecting loop of parseFn. -/
def parseFnParams (toks : List Token) (file : String) :
    Nat → List String → ParserM (List String)
  | 0, _ => pThrow (fuelParseErr file)
  | f + 1, acc => do
    let m ← matchT toks file TokType.IDENT none
    match m with
    | some t => parseFnParams toks file f (acc ++ [asStr t.value])
    | none => pure acc

/-- ParseFn: name, greedily collected parameters and a required END; the
body is built empty, and the recorded end node is the name token, so the
loc collapses to the FN token position. -/
def parseFn (toks : List Token) (file : String) : Nat → ParserM Stmt
  | 0 => pThrow (fuelParseErr file)
  | f + 1 => do
    let start ← consumeT toks file TokType.FN none
    let id ← consumeT toks file TokType.IDENT none
    let params ← parseFnParams toks file f []
    let _ ← consumeT toks file TokType.END none
    pure (Stmt.fnDef (asStr id.value) params [] (locFromTok start))

/-- ParseReturn: the argument is omitted exactly when the next token is
EOF. -/
def parseReturn (toks : List Token) (file : String) : Nat → ParserM Stmt
  | 0 => pThrow (fuelParseErr file)
  | f + 1 => do
    let start ← consumeT toks file TokType.RETURN none
    let tok ← peekT toks file
    if tok.type = TokType.EOF then
      pure (Stmt.returnS none (locFromTok start))
    else do
      let arg ← parseExpression toks file f
      pure (Stmt.returnS (some arg) (locFromTokExpr start arg))

/-- ParseStatement: dispatch on the leading token type; anything not a
statement keyword parses as a bare expression statement, whose loc end also
collapses to its start. -/
def parseStatement (toks : List Token) (file : String) : Nat → ParserM Stmt
  | 0 => pThrow (fuelParseErr file)
  | f + 1 => do
    let tok ← peekT toks file
    match tok.type with
    | TokType.PRINT => parsePrint toks file f
    | TokType.SET => parseSet toks file f
    | TokType.INPUT => parseInput toks file f
    | TokType.IF => parseIf toks file f
    | TokType.LOOP => parseLoop toks file f
    | TokType.WHILE => parseWhile toks file f
    | TokType.FN => parseFn toks file f
    | TokType.RETURN => parseReturn toks file f
    | _ => do
      let e ← parseExpression toks file f
      pure (Stmt.exprS e (locFromExpr e))

/-- Top-level loop: one statement at a time until the cursor looks at EOF. -/
def parseTopLoop (toks : List Token) (file : String) : Nat → ParserM (List Stmt)
  | 0 => pThrow (fuelParseErr file)
  | f + 1 => do
    let tok ← peekT toks file
    if tok.type = TokType.EOF then pure []
    else do
      let s ← parseStatement toks file f
      let rest ← parseTopLoop toks file f
      pure (s :: rest)

end

/-- The parser entry point (parse in src/lib/parser.js).  The fuel bound is
generous: the source parser either consumes a token or fails within a
bounded number of steps, so the bound below can be exhausted only where the
source itself would never terminate. -/
def parse (toks : List Token) (file : String) : Except QastError Program :=
  match parseTopLoop toks file (16 * toks.length + 64) 0 with
  | Except.error e => Except.error e
  | Except.ok (body, _) => Except.ok ⟨body⟩

/-! Evaluator (src/lib/runtime.js). -/

/-- Runtime values: numbers, strings, booleans, the null value and the
built-in print function (the only function value the runtime ever
creates). -/
inductive Value where
  | num (n : JsNumber)
  | str (s : String)
  | bool (b : Bool)
  | null
  | builtinPrint
deriving DecidableEq, Repr

/-- Runtime failures: a structured QastError, or a host-level TypeError
(for instance invoking a non-function), which the source surfaces as an
unstructured exception. -/
inductive RtErr where
  | qast (e : QastError)
  | host (msg : String)
deriving DecidableEq, Repr

/-- A binding frame: one scope level, a finite map from names to values
(a host object with unique keys; insertion order is irrelevant to the
claims, lookup takes the first matching key). -/
abbrev Frame := List (String × Value)

/-- Frame lookup, as hasOwnProperty plus property read. -/
def frameGet (f : Frame) (n : String) : Option Value :=
  match f.find? (fun p => p.1 = n) with
  | some p => some p.2
  | none => none

/-- Frame update: overwrites an existing key in place or appends a new
one, as host property assignment. -/
def frameSet (f : Frame) (n : String) (v : Value) : Frame :=
  match f with
  | [] => [(n, v)]
  | p :: rest => if p.1 = n then (n, v) :: rest else p :: frameSet rest n v

/-- SetVar: binds in the innermost (last) frame of the stack.  The stack
is a host array whose index 0 is the global frame and whose last element
is the innermost frame. -/
def setVarStack (stack : List Frame) (n : String) (v : Value) : List Frame :=
  match stack with
  | [] => []
  | [f] => [frameSet f n v]
  | f :: rest => f :: setVarStack rest n v

/-- GetVar lookup order: the source walks the stack array from the last
index (innermost) down to index 0; searching the tail (inner frames) first
is the same order. -/
def getVarStack (stack : List Frame) (n : String) : Option Value :=
  match stack with
  | [] => none
  | f :: rest =>
    match getVarStack rest n with
    | some v => some v
    | none => frameGet f n

/-- Runtime state: the frame stack, the values printed so far, the trace
diagnostics emitted so far, the queue of external input lines not yet
consumed, and the trace flag. -/
structure RtState where
  envStack : List Frame
  output : List Value
  traceLog : List String
  inputs : List String
  trace : Bool
deriving DecidableEq, Repr

/-- Truthiness of a value, as the host boolean conversion: zero, NaN, the
empty string, false and null are falsy; everything else is truthy. -/
def truthy : Value → Bool
  | Value.num (JsNumber.rat q) => decide (q ≠ 0)
  | Value.num JsNumber.nan => false
  | Value.num _ => true
  | Value.str s => decide (s ≠ "")
  | Value.bool b => b
  | Value.null => false
  | Value.builtinPrint => true

/-- Host numeric conversion of a string: trimmed empty text is zero; an
optional sign followed by digits with at most one dot is the exact decimal
value; everything else is NaN.  (The host also accepts hexadecimal,
exponent and Infinity forms, which no claim exercises; those would need to
extend this conversion.) -/
def jsStrToNumber (s : String) : JsNumber :=
  let t := jsTrimChars s.data
  if t = [] then JsNumber.rat 0
  else
    let body := if hasLead t ['+'] || hasLead t ['-'] then t.drop 1 else t
    let negSign := hasLead t ['-']
    if body = [] then JsNumber.nan
    else if body.all isNumChar then
      if body.count '.' > 1 then JsNumber.nan
      else if body = ['.'] then JsNumber.nan
      else
        match parseDecimal (if hasLead body ['.'] then '0' :: body else body) with
        | JsNumber.rat q => JsNumber.rat (if negSign then -q else q)
        | n => n
    else JsNumber.nan

/-- Host numeric conversion of a value. -/
def toNumberV : Value → JsNumber
  | Value.num n => n
  | Value.str s => jsStrToNumber s
  | Value.bool b => JsNumber.rat (if b then 1 else 0)
  | Value.null => JsNumber.rat 0
  | Value.builtinPrint => JsNumber.nan

/-- Rendering of a JS number as a string.  Exact for NaN, the infinities
and integers; non-integer rationals with a terminating decimal expansion
are printed exactly, and others (unreachable in any claim) fall back to a
fraction rendering that differs from host shortest-double printing. -/
def jnToString (n : JsNumber) : String :=
  match n with
  | JsNumber.nan => "NaN"
  | JsNumber.posInf => "Infinity"
  | JsNumber.negInf => "-Infinity"
  | JsNumber.rat q =>
    if q.den = 1 then toString q.num
    else
      match (List.range 40).find? (fun k => (q * (10 : ℚ) ^ k).den = 1) with
      | some k =>
        let scaled := (q * (10 : ℚ) ^ k).num
        let sign := if scaled < 0 then "-" else ""
        let digits := (toString scaled.natAbs).data
        let digits := if digits.length ≤ k then
            List.replicate (k + 1 - digits.length) '0' ++ digits
          else digits
        sign ++ String.mk (digits.take (digits.length - k)) ++ "." ++
          String.mk (digits.drop (digits.length - k))
      | none => toString q.num ++ "/" ++ toString q.den

/-- Host string conversion of a value.  The function case stands for the
host source-text rendering of the built-in print closure; its exact text
matters to no claim. -/
def jsToString : Value → String
  | Value.num n => jnToString n
  | Value.str s => s
  | Value.bool b => if b then "true" else "false"
  | Value.null => "null"
  | Value.builtinPrint => "function print"

/-- Strict equality of values (the triple-equals of the host): no
coercion between unlike types, NaN unequal to itself. -/
def strictEq : Value → Value → Bool
  | Value.num a, Value.num b => JsNumber.seqB a b
  | Value.str a, Value.str b => decide (a = b)
  | Value.bool a, Value.bool b => decide (a = b)
  | Value.null, Value.null => true
  | Value.builtinPrint, Value.builtinPrint => true
  | _, _ => false

/-- Code-point lexicographic order on character lists, the host string
relational comparison (code-unit order; identical on the claims in
scope). -/
def strLtB : List Char → List Char → Bool
  | [], [] => false
  | [], _ :: _ => true
  | _ :: _, [] => false
  | a :: as, b :: bs =>
    if a = b then strLtB as bs else decide (a < b)

/-- The host abstract relational comparison for the four relational
operators: two strings compare lexicographically, any other pair compares
numerically after numeric conversion (NaN making every comparison
false). -/
def jsRel (op : String) (l r : Value) : Bool :=
  match l, r with
  | Value.str a, Value.str b =>
    if op = ">" then strLtB b.data a.data
    else if op = "<" then strLtB a.data b.data
    else if op = ">=" then !strLtB a.data b.data
    else !strLtB b.data a.data
  | _, _ =>
    let a := toNumberV l
    let b := toNumberV r
    if op = ">" then JsNumber.ltB b a
    else if op = "<" then JsNumber.ltB a b
    else if op = ">=" then JsNumber.leB b a
    else JsNumber.leB a b

/-- The host binary plus: string concatenation when either operand is a
string, numeric addition otherwise. -/
def jsAdd (l r : Value) : Value :=
  match l, r with
  | Value.str a, _ => Value.str (a ++ jsToString r)
  | _, Value.str b => Value.str (jsToString l ++ b)
  | _, _ => Value.num (JsNumber.add (toNumberV l) (toNumberV r))

/-- The evaluator case for BinaryExpression after both operands have been
evaluated: the switch on the operator string in evalExpression of
src/lib/runtime.js.  An operator the switch does not know raises a plain
host error. -/
def applyBinary (op : String) (l r : Value) : Except RtErr Value :=
  if op = "+" then Except.ok (jsAdd l r)
  else if op = "-" then
    Except.ok (Value.num (JsNumber.sub (toNumberV l) (toNumberV r)))
  else if op = "*" then
    Except.ok (Value.num (JsNumber.mul (toNumberV l) (toNumberV r)))
  else if op = "/" then
    Except.ok (Value.num (JsNumber.div (toNumberV l) (toNumberV r)))
  else if op = "%" then
    Except.ok (Value.num (JsNumber.modJ (toNumberV l) (toNumberV r)))
  else if op = "==" then Except.ok (Value.bool (strictEq l r))
  else if op = "!=" then Except.ok (Value.bool (!strictEq l r))
  else if op = ">" ∨ op = "<" ∨ op = ">=" ∨ op = "<=" then
    Except.ok (Value.bool (jsRel op l r))
  else Except.error (RtErr.host ("Unknown operator " ++ op))

/-- The evaluator case for UnaryExpression after the operand has been
evaluated. -/
def applyUnary (op : String) (v : Value) : Except RtErr Value :=
  if op = "-" then Except.ok (Value.num (JsNumber.neg (toNumberV v)))
  else if op = "!" then Except.ok (Value.bool (!truthy v))
  else Except.error (RtErr.host ("Unknown unary operator " ++ op))

/-- The undefined-variable error of getVar: positioned at the loc start;
the file slot of the node loc carries no property, so the error file is
absent. -/
def undefVarErr (n : String) (loc : Loc) : RtErr :=
  RtErr.qast ⟨"Undefined variable \x27" ++ n ++ "\x27", none,
    loc.start.line, loc.start.column, none⟩

/-- Expression evaluation (evalExpression in src/lib/runtime.js).
Expressions read the frame stack and never change any state. -/
def evalExpression (st : RtState) : Expr → Except RtErr Value
  | Expr.numberLit v _ => Except.ok (Value.num v)
  | Expr.stringLit v _ => Except.ok (Value.str v)
  | Expr.ident n loc =>
    match getVarStack st.envStack n with
    | some v => Except.ok v
    | none => Except.error (undefVarErr n loc)
  | Expr.unary op a _ =>
    match evalExpression st a with
    | Except.error e => Except.error e
    | Except.ok v => applyUnary op v
  | Expr.binary op a b _ =>
    match evalExpression st a with
    | Except.error e => Except.error e
    | Except.ok l =>
      match evalExpression st b with
      | Except.error e => Except.error e
      | Except.ok r => applyBinary op l r
  | Expr.grouping e _ => evalExpression st e

/-- Statement outcome: fall through normally, or carry a return value (the
tagged return record of evalStatement). -/
inductive Outcome where
  | normal
  | ret (v : Value)
deriving DecidableEq, Repr

/-- Node kind tag of a statement, as printed by trace mode. -/
def stmtKindName : Stmt → String
  | Stmt.printS _ _ => "PrintStatement"
  | Stmt.setS _ _ _ => "SetStatement"
  | Stmt.inputS _ _ _ => "InputStatement"
  | Stmt.exprS _ _ => "ExprStatement"
  | Stmt.returnS _ _ => "ReturnStatement"
  | Stmt.ifS _ _ _ => "IfStatement"
  | Stmt.loopS _ _ _ => "LoopStatement"
  | Stmt.whileS _ _ _ => "WhileStatement"
  | Stmt.fnDef _ _ _ _ => "FunctionDef"

/-- The trace emission at the top of evalStatement. -/
def applyTrace (st : RtState) (node : Stmt) : RtState :=
  if st.trace then
    { st with traceLog := st.traceLog ++ ["[trace] " ++ stmtKindName node] }
  else st

/-- The host error raised when the print slot of the global frame is
invoked but does not hold a function. -/
def printNotFn : RtErr := RtErr.host "runtime.envStack[0].print is not a function"

/-- Invoking the print slot read from the global frame with one argument:
the built-in appends the value to the output; a missing or non-function
slot is a host TypeError. -/
def invokePrintSlot (slot : Option Value) (v : Value) (st : RtState) :
    Except RtErr RtState :=
  match slot with
  | some Value.builtinPrint => Except.ok { st with output := st.output ++ [v] }
  | _ => Except.error printNotFn

/-- Statement evaluation (evalStatement in src/lib/runtime.js).  The
PrintStatement case reads the print slot from the frame at index 0 of the
stack, not through the innermost-outward lookup.  The control-flow
statement kinds fall to the default arm and are no-ops. -/
def evalStatement (st0 : RtState) (node : Stmt) : Except RtErr (RtState × Outcome) :=
  let st := applyTrace st0 node
  match node with
  | Stmt.printS arg _ =>
    match evalExpression st arg with
    | Except.error e => Except.error e
    | Except.ok v =>
      match invokePrintSlot (frameGet (st.envStack.headD []) "print") v st with
      | Except.error e => Except.error e
      | Except.ok st2 => Except.ok (st2, Outcome.normal)
  | Stmt.setS n valExpr _ =>
    match evalExpression st valExpr with
    | Except.error e => Except.error e
    | Except.ok v =>
      Except.ok ({ st with envStack := setVarStack st.envStack n v }, Outcome.normal)
  | Stmt.inputS n _ _ =>
    match st.inputs with
    | [] => Except.error (RtErr.host "input blocked with no pending line")
    | i :: rest =>
      Except.ok ({ st with
                    envStack := setVarStack st.envStack n (Value.str i)
                    inputs := rest }, Outcome.normal)
  | Stmt.exprS e _ =>
    match evalExpression st e with
    | Except.error er => Except.error er
    | Except.ok _ => Except.ok (st, Outcome.normal)
  | Stmt.returnS arg _ =>
    match arg with
    | none => Except.ok (st, Outcome.ret Value.null)
    | some a =>
      match evalExpression st a with
      | Except.error e => Except.error e
      | Except.ok v => Except.ok (st, Outcome.ret v)
  | Stmt.ifS _ _ _ => Except.ok (st, Outcome.normal)
  | Stmt.loopS _ _ _ => Except.ok (st, Outcome.normal)
  | Stmt.whileS _ _ _ => Except.ok (st, Outcome.normal)
  | Stmt.fnDef _ _ _ _ => Except.ok (st, Outcome.normal)

/-- Program evaluation (evalProgram in src/lib/runtime.js): statements in
order; the first return outcome ends the pass and is the program result,
falling off the end yields no result. -/
def evalStmts (st : RtState) : List Stmt → Except RtErr (RtState × Option Value)
  | [] => Except.ok (st, none)
  | s :: rest =>
    match evalStatement st s with
    | Except.error e => Except.error e
    | Except.ok (st2, Outcome.ret v) => Except.ok (st2, some v)
    | Except.ok (st2, Outcome.normal) => evalStmts st2 rest

/-- Program evaluation entry point. -/
def evalProgram (p : Program) (st : RtState) : Except RtErr (RtState × Option Value) :=
  evalStmts st p.body

/-- CreateRuntime: a fresh state with one global frame pre-bound with the
built-in print. -/
def createRuntime (trace : Bool) (inputs : List String) : RtState :=
  { envStack := [[("print", Value.builtinPrint)]]
    output := []
    traceLog := []
    inputs := inputs
    trace := trace }

/-- Full pipeline outcome: lex error, parse error, runtime error, or final
state with optional program result. -/
inductive RunResult where
  | lexErr (e : QastError)
  | parseErr (e : QastError)
  | rtErr (e : RtErr)
  | ok (st : RtState) (result : Option Value)
deriving DecidableEq, Repr

/-- Running a source text through the whole pipeline with a fresh untraced
runtime and the given input lines. -/
def runSource (src : String) (file : String) (inputs : List String) : RunResult :=
  match lex src file with
  | Except.error e => RunResult.lexErr e
  | Except.ok toks =>
    match parse toks file with
    | Except.error e => RunResult.parseErr e
    | Except.ok p =>
      match evalProgram p (createRuntime false inputs) with
      | Except.error e => RunResult.rtErr e
      | Except.ok (st, r) => RunResult.ok st r

/-- The printed output of a whole pipeline run. -/
def runOutput (src : String) (file : String) : Option (List Value) :=
  match runSource src file [] with
  | RunResult.ok st _ => some st.output
  | _ => none

/-! Specification-side definitions used to state claims. -/

/-- Comparison following the specification words for operands of unlike
types: strict value comparison without implicit coercion, so the two
equality operators answer false and true and no relational order holds
between a number and a string. -/
def specStrictCompareMixed (op : String) : Value :=
  if op = "==" then Value.bool false
  else if op = "!=" then Value.bool true
  else Value.bool false

/-- Specification-side innermost-first lookup: the frames in innermost-to-
outermost order are the reversed stack, and the first frame containing the
name wins. -/
def innermostVal (stack : List Frame) (n : String) : Option Value :=
  stack.reverse.findSome? (fun f => frameGet f n)

/-- Evaluation of the optional argument of a return statement: an absent
argument yields the null sentinel. -/
def evalReturnArg (st : RtState) : Option Expr → Except RtErr Value
  | none => Except.ok Value.null
  | some a => evalExpression st a

/-- A token the parser is able to consume: never the EOF token and never a
logical-conjunction or logical-disjunction operator token, whose values no
consume or match pattern of the parser mentions. -/
def SellTok (t : Token) : Prop :=
  t.type ≠ TokType.EOF ∧
    ¬(t.type = TokType.OP ∧
      (t.value = TokValue.str "&&" ∨ t.value = TokValue.str "||"))

/-- Parser-step invariant: a successful step never moves the cursor
backwards and every token position it passes over holds a consumable
token. -/
def Advances (toks : List Token) (m : ParserM α) : Prop :=
  ∀ pos a pos2, m pos = Except.ok (a, pos2) →
    pos ≤ pos2 ∧ ∀ k t, pos ≤ k → k < pos2 → toks.get? k = some t → SellTok t

/-- A consume or match pattern actually used by the parser: never the EOF
type, and OP only with an explicit value different from the two logical
operators. -/
def PatOk (ty : TokType) (v : Option TokValue) : Prop :=
  ty ≠ TokType.EOF ∧
    (ty = TokType.OP →
      ∃ s, v = some (TokValue.str s) ∧ s ≠ "&&" ∧ s ≠ "||")

/-- Decidable equality for Except results, used to settle concrete
computations by decide. -/
instance {ε α : Type} [DecidableEq ε] [DecidableEq α] :
    DecidableEq (Except ε α) := fun a b =>
  match a, b with
  | Except.error e1, Except.error e2 =>
    match decEq e1 e2 with
    | isTrue h => isTrue (by rw [h])
    | isFalse h => isFalse (by intro hc; cases hc; exact h rfl)
  | Except.ok v1, Except.ok v2 =>
    match decEq v1 v2 with
    | isTrue h => isTrue (by rw [h])
    | isFalse h => isFalse (by intro hc; cases hc; exact h rfl)
  | Except.error _, Except.ok _ => isFalse (by intro hc; cases hc)
  | Except.ok _, Except.error _ => isFalse (by intro hc; cases hc)

/-! Helper lemmas. -/

theorem findSome?_append {α β : Type} (f : α → Option β) (l1 l2 : List α) :
    (l1 ++ l2).findSome? f =
      match l1.findSome? f with
      | some v => some v
      | none => l2.findSome? f := by
  induction l1 with
  | nil => rfl
  | cons a as ih =>
    simp only [List.cons_append, List.findSome?]
    cases f a <;> simp [ih]

theorem getVarStack_eq_innermost (stack : List Frame) (n : String) :
    getVarStack stack n = innermostVal stack n := by
  induction stack with
  | nil => rfl
  | cons f rest ih =>
    simp only [innermostVal] at ih
    simp only [getVarStack, innermostVal, List.reverse_cons,
      findSome?_append, ih]
    cases rest.reverse.findSome? (fun fr => frameGet fr n) with
    | none =>
      simp only [List.findSome?]
      cases frameGet f n <;> rfl
    | some v => rfl

theorem applyTrace_envStack (st : RtState) (node : Stmt) :
    (applyTrace st node).envStack = st.envStack := by
  unfold applyTrace; split <;> rfl

theorem applyTrace_output (st : RtState) (node : Stmt) :
    (applyTrace st node).output = st.output := by
  unfold applyTrace; split <;> rfl

theorem applyTrace_inputs (st : RtState) (node : Stmt) :
    (applyTrace st node).inputs = st.inputs := by
  unfold applyTrace; split <;> rfl

theorem evalExpression_env (st1 st2 : RtState)
    (h : st1.envStack = st2.envStack) (e : Expr) :
    evalExpression st1 e = evalExpression st2 e := by
  induction e with
  | numberLit v l => rfl
  | stringLit v l => rfl
  | ident n l => simp only [evalExpression, h]
  | unary op a l iha => simp only [evalExpression, iha]
  | binary op a b l iha ihb => simp only [evalExpression, iha, ihb]
  | grouping a l iha => simp only [evalExpression, iha]

/-! Lexer lemmas. -/

theorem keywordType_ne_eof (s : String) (t : TokType)
    (h : keywordType s = some t) : t ≠ TokType.EOF := by
  unfold keywordType at h
  split at h <;> first
    | (cases h; decide)
    | cases h

theorem keywordOrIdent_ne_eof (s : String) :
    keywordOrIdent s ≠ TokType.EOF := by
  unfold keywordOrIdent
  split
  · exact keywordType_ne_eof s _ (by assumption)
  · decide

theorem tokStmt_err (file : String) (ln : Nat) :
    ∀ fuel cs col e, cs.length < fuel → 1 ≤ col →
      tokStmt file ln fuel cs col = Except.error e →
      e.file = some file ∧ e.line = ln ∧ 1 ≤ e.column ∧ e.hint = none := by
  intro fuel
  induction fuel with
  | zero =>
    intro cs col e hlen
    exact absurd hlen (Nat.not_lt_zero _)
  | succ f ih =>
    intro cs col e hlen hcol h
    match cs with
    | [] => simp [tokStmt] at h
    | c :: rest =>
      have hrest : rest.length < f := by
        simpa using Nat.lt_of_succ_lt_succ hlen
      simp only [tokStmt] at h
      split at h
      · exact ih rest (col + 1) e hrest (by omega) h
      · split at h
        · split at h
          · injection h with h2
            subst h2
            exact ⟨rfl, rfl, hcol, rfl⟩
          · split at h
            · rename_i e2 heq
              injection h with h2
              subst h2
              exact ih _ _ e2 (Nat.lt_of_le_of_lt
                (by simpa using List.length_drop_le _ rest) hrest) (by omega) heq
            · cases h
        · split at h
          · split at h
            · rename_i e2 heq
              injection h with h2
              subst h2
              exact ih _ _ e2 (Nat.lt_of_le_of_lt
                (by simpa using List.length_drop_le _ rest) hrest) (by omega) heq
            · cases h
          · split at h
            · split at h
              · rename_i e2 heq
                injection h with h2
                subst h2
                exact ih _ _ e2 (Nat.lt_of_le_of_lt
                  (by simpa using List.length_drop_le _ rest) hrest) (by omega) heq
              · cases h
            · split at h
              · split at h
                · split at h
                  · rename_i e2 heq
                    injection h with h2
                    subst h2
                    rename_i d rest2 _ _
                    exact ih rest2 (col + 2) e2
                      (Nat.lt_of_le_of_lt (by simp) hrest) (by omega) heq
                  · cases h
                · split at h
                  · split at h
                    · rename_i e2 heq
                      injection h with h2
                      subst h2
                      exact ih _ (col + 1) e2 hrest (by omega) heq
                    · cases h
                  · injection h with h2
                    subst h2
                    exact ⟨rfl, rfl, hcol, rfl⟩
              · split at h
                · split at h
                  · rename_i e2 heq
                    injection h with h2
                    subst h2
                    exact ih _ (col + 1) e2 hrest (by omega) heq
                  · cases h
                · injection h with h2
                  subst h2
                  exact ⟨rfl, rfl, hcol, rfl⟩

theorem tokStmt_mem (file : String) (ln : Nat) :
    ∀ fuel cs col ts, tokStmt file ln fuel cs col = Except.ok ts →
      ∀ t ∈ ts, t.type ≠ TokType.EOF ∧ t.line = ln := by
  intro fuel
  induction fuel with
  | zero =>
    intro cs col ts h
    cases h
  | succ f ih =>
    intro cs col ts h
    match cs with
    | [] =>
      simp only [tokStmt] at h
      cases h
      intro t ht
      cases ht
    | c :: rest =>
      simp only [tokStmt] at h
      split at h
      · exact ih rest (col + 1) ts h
      · split at h
        · split at h
          · cases h
          · split at h
            · cases h
            · rename_i ts2 heq
              injection h with h2
              subst h2
              intro t ht
              cases ht with
              | head => exact ⟨by simp, rfl⟩
              | tail _ ht2 => exact ih _ _ ts2 heq t ht2
        · split at h
          · split at h
            · cases h
            · rename_i ts2 heq
              injection h with h2
              subst h2
              intro t ht
              cases ht with
              | head => exact ⟨by simp, rfl⟩
              | tail _ ht2 => exact ih _ _ ts2 heq t ht2
          · split at h
            · split at h
              · cases h
              · rename_i ts2 heq
                injection h with h2
                subst h2
                intro t ht
                cases ht with
                | head => exact ⟨keywordOrIdent_ne_eof _, rfl⟩
                | tail _ ht2 => exact ih _ _ ts2 heq t ht2
            · split at h
              · split at h
                · split at h
                  · cases h
                  · rename_i ts2 heq
                    injection h with h2
                    subst h2
                    intro t ht
                    cases ht with
                    | head => exact ⟨by simp, rfl⟩
                    | tail _ ht2 => exact ih _ _ ts2 heq t ht2
                · split at h
                  · split at h
                    · cases h
                    · rename_i ts2 heq
                      injection h with h2
                      subst h2
                      intro t ht
                      cases ht with
                      | head => exact ⟨by simp, rfl⟩
                      | tail _ ht2 => exact ih _ _ ts2 heq t ht2
                  · cases h
              · split at h
                · split at h
                  · cases h
                  · rename_i ts2 heq
                    injection h with h2
                    subst h2
                    intro t ht
                    cases ht with
                    | head => exact ⟨by simp, rfl⟩
                    | tail _ ht2 => exact ih _ _ ts2 heq t ht2
                · cases h

theorem lexLines_err (file : String) :
    ∀ lines idx hdr e, lexLines file lines idx hdr = Except.error e →
      e.file = some file ∧ 1 ≤ e.line ∧ 1 ≤ e.column ∧
        (hdr = true → e.hint = none) := by
  intro lines
  induction lines with
  | nil =>
    intro idx hdr e h
    cases h
  | cons raw rest ih =>
    intro idx hdr e h
    by_cases h1 : jsTrim raw = ""
    · simp only [lexLines, if_pos h1] at h
      exact ih (idx + 1) hdr e h
    · by_cases h2 : strHasLead (jsTrim raw) "#" = true
      · simp only [lexLines, if_neg h1, if_pos h2] at h
        exact ih (idx + 1) hdr e h
      · cases hdr with
        | false =>
          by_cases h3 : strHasLead (jsTrim raw) "new qas" = false
          · simp only [lexLines, if_neg h1, if_neg h2] at h
            rw [if_pos trivial, if_pos h3] at h
            injection h with h4
            subst h4
            refine ⟨rfl, Nat.succ_le_succ (Nat.zero_le _), Nat.le_refl 1, ?_⟩
            intro hh
            cases hh
          · simp only [lexLines, if_neg h1, if_neg h2] at h
            rw [if_pos trivial, if_neg h3] at h
            have := ih (idx + 1) true e h
            exact ⟨this.1, this.2.1, this.2.2.1, fun _ => this.2.2.2 rfl⟩
        | true =>
          simp only [lexLines, if_neg h1, if_neg h2] at h
          rw [if_neg (by decide)] at h
          by_cases h4 : strHasLead (jsTrim raw) "q." = false
          · rw [if_pos h4] at h
            injection h with h5
            subst h5
            exact ⟨rfl, Nat.succ_le_succ (Nat.zero_le _),
              Nat.succ_le_succ (Nat.zero_le _), fun _ => rfl⟩
          · rw [if_neg h4] at h
            cases htok : tokStmt file (idx + 1)
                (((raw.data.dropWhile isJsSpace).drop 2).length + 1)
                ((raw.data.dropWhile isJsSpace).drop 2) 1 with
            | error e2 =>
              rw [htok] at h
              injection h with h5
              subst h5
              have := tokStmt_err file (idx + 1) _ _ 1 e2
                (Nat.lt_succ_self _) (Nat.le_refl 1) htok
              refine ⟨this.1, ?_, this.2.2.1, fun _ => this.2.2.2⟩
              rw [this.2.1]
              exact Nat.succ_le_succ (Nat.zero_le _)
            | ok ts1 =>
              rw [htok] at h
              cases hrest : lexLines file rest (idx + 1) true with
              | error e2 =>
                rw [hrest] at h
                injection h with h5
                subst h5
                have := ih (idx + 1) true e2 hrest
                exact ⟨this.1, this.2.1, this.2.2.1, fun _ => this.2.2.2 rfl⟩
              | ok ts2 =>
                rw [hrest] at h
                cases h

theorem lexLines_mem (file : String) :
    ∀ lines idx hdr ts, lexLines file lines idx hdr = Except.ok ts →
      ∀ t ∈ ts, t.type ≠ TokType.EOF ∧ idx + 1 ≤ t.line := by
  intro lines
  induction lines with
  | nil =>
    intro idx hdr ts h
    cases h
    intro t ht
    cases ht
  | cons raw rest ih =>
    intro idx hdr ts h
    by_cases h1 : jsTrim raw = ""
    · simp only [lexLines, if_pos h1] at h
      intro t ht
      have := ih (idx + 1) hdr ts h t ht
      exact ⟨this.1, by omega⟩
    · by_cases h2 : strHasLead (jsTrim raw) "#" = true
      · simp only [lexLines, if_neg h1, if_pos h2] at h
        intro t ht
        have := ih (idx + 1) hdr ts h t ht
        exact ⟨this.1, by omega⟩
      · cases hdr with
        | false =>
          by_cases h3 : strHasLead (jsTrim raw) "new qas" = false
          · simp only [lexLines, if_neg h1, if_neg h2] at h
            rw [if_pos trivial, if_pos h3] at h
            cases h
          · simp only [lexLines, if_neg h1, if_neg h2] at h
            rw [if_pos trivial, if_neg h3] at h
            intro t ht
            have := ih (idx + 1) true ts h t ht
            exact ⟨this.1, by omega⟩
        | true =>
          simp only [lexLines, if_neg h1, if_neg h2] at h
          rw [if_neg (by decide)] at h
          by_cases h4 : strHasLead (jsTrim raw) "q." = false
          · rw [if_pos h4] at h
            cases h
          · rw [if_neg h4] at h
            cases htok : tokStmt file (idx + 1)
                (((raw.data.dropWhile isJsSpace).drop 2).length + 1)
                ((raw.data.dropWhile isJsSpace).drop 2) 1 with
            | error e2 =>
              rw [htok] at h
              cases h
            | ok ts1 =>
              rw [htok] at h
              cases hrest : lexLines file rest (idx + 1) true with
              | error e2 =>
                rw [hrest] at h
                cases h
              | ok ts2 =>
                rw [hrest] at h
                injection h with h5
                subst h5
                intro t ht
                rcases List.mem_append.mp ht with hm1 | hm2
                · have := tokStmt_mem file (idx + 1) _ _ 1 ts1 htok t hm1
                  exact ⟨this.1, by omega⟩
                · have := ih (idx + 1) true ts2 hrest t hm2
                  exact ⟨this.1, by omega⟩

theorem lexLines_true_hint (file : String) :
    ∀ lines idx e, lexLines file lines idx true = Except.error e →
      e.hint = none := by
  intro lines idx e h
  exact (lexLines_err file lines idx true e h).2.2.2 rfl

theorem lexLines_header_iff (file : String) :
    ∀ lines idx i,
      lexLines file lines idx false = Except.error (headerErrorAt file i) ↔
        ∃ t, firstEffectiveAux lines (idx + 1) = some (i, t) ∧
          strHasLead t "new qas" = false := by
  intro lines
  induction lines with
  | nil =>
    intro idx i
    constructor
    · intro h
      cases h
    · intro ⟨t, ht, _⟩
      cases ht
  | cons raw rest ih =>
    intro idx i
    by_cases h1 : jsTrim raw = ""
    · simp only [lexLines, firstEffectiveAux, if_pos h1]
      exact ih (idx + 1) i
    · by_cases h2 : strHasLead (jsTrim raw) "#" = true
      · simp only [lexLines, firstEffectiveAux, if_neg h1, if_pos h2]
        exact ih (idx + 1) i
      · by_cases h3 : strHasLead (jsTrim raw) "new qas" = false
        · constructor
          · intro h
            simp only [lexLines, if_neg h1, if_neg h2] at h
            rw [if_pos trivial, if_pos h3] at h
            injection h with h4
            have hline : i = idx + 1 := by
              have := congrArg QastError.line h4
              simpa [headerErrorAt] using this.symm
            subst hline
            refine ⟨jsTrim raw, ?_, h3⟩
            simp only [firstEffectiveAux, if_neg h1, if_neg h2]
          · intro ⟨t, ht, hlead⟩
            simp only [firstEffectiveAux, if_neg h1, if_neg h2] at ht
            injection ht with ht2
            have hi2 : idx + 1 = i := congrArg Prod.fst ht2
            subst hi2
            simp only [lexLines, if_neg h1, if_neg h2]
            rw [if_pos trivial, if_pos h3]
        · constructor
          · intro h
            simp only [lexLines, if_neg h1, if_neg h2] at h
            rw [if_pos trivial, if_neg h3] at h
            have := lexLines_true_hint file rest (idx + 1)
              (headerErrorAt file i) h
            simp [headerErrorAt] at this
          · intro ⟨t, ht, hlead⟩
            simp only [firstEffectiveAux, if_neg h1, if_neg h2] at ht
            injection ht with ht2
            have hteq : jsTrim raw = t := congrArg Prod.snd ht2
            rw [hteq] at h3
            exact absurd hlead h3

theorem lexLines_header_tokens (file : String) :
    ∀ lines idx ts i tr,
      lexLines file lines idx false = Except.ok ts →
      firstEffectiveAux lines (idx + 1) = some (i, tr) →
      ∀ t ∈ ts, i < t.line := by
  intro lines
  induction lines with
  | nil =>
    intro idx ts i tr h
    cases h
    intro _ t ht
    cases ht
  | cons raw rest ih =>
    intro idx ts i tr h hfe
    by_cases h1 : jsTrim raw = ""
    · simp only [lexLines, if_pos h1] at h
      simp only [firstEffectiveAux, if_pos h1] at hfe
      exact ih (idx + 1) ts i tr h hfe
    · by_cases h2 : strHasLead (jsTrim raw) "#" = true
      · simp only [lexLines, if_neg h1, if_pos h2] at h
        simp only [firstEffectiveAux, if_neg h1, if_pos h2] at hfe
        exact ih (idx + 1) ts i tr h hfe
      · simp only [firstEffectiveAux, if_neg h1, if_neg h2] at hfe
        injection hfe with hfe2
        have hi : i = idx + 1 := (congrArg Prod.fst hfe2).symm
        subst hi
        by_cases h3 : strHasLead (jsTrim raw) "new qas" = false
        · simp only [lexLines, if_neg h1, if_neg h2] at h
          rw [if_pos trivial, if_pos h3] at h
          cases h
        · simp only [lexLines, if_neg h1, if_neg h2] at h
          rw [if_pos trivial, if_neg h3] at h
          intro t ht
          have := lexLines_mem file rest (idx + 1) true ts h t ht
          omega

/-! Parser-step inversion lemmas. -/

theorem bind_ok {α β : Type} {m : ParserM α} {g : α → ParserM β} {pos : Nat}
    {b : β} {pos2 : Nat} (h : (m >>= g) pos = Except.ok (b, pos2)) :
    ∃ a pos1, m pos = Except.ok (a, pos1) ∧ g a pos1 = Except.ok (b, pos2) := by
  have h2 : pBind m g pos = Except.ok (b, pos2) := h
  unfold pBind at h2
  cases hm : m pos with
  | error e =>
    rw [hm] at h2
    cases h2
  | ok r =>
    rcases r with ⟨a, pos1⟩
    rw [hm] at h2
    exact ⟨a, pos1, rfl, h2⟩

theorem pure_ok {α : Type} {a : α} {pos : Nat} {b : α} {pos2 : Nat}
    (h : (pure a : ParserM α) pos = Except.ok (b, pos2)) :
    a = b ∧ pos = pos2 := by
  have h2 : pPure a pos = Except.ok (b, pos2) := h
  unfold pPure at h2
  injection h2 with h3
  exact ⟨congrArg Prod.fst h3, congrArg Prod.snd h3⟩

theorem pThrow_ok {α : Type} {e : QastError} {pos : Nat} {b : α} {pos2 : Nat}
    (h : (pThrow e : ParserM α) pos = Except.ok (b, pos2)) : False := by
  cases h

theorem peekT_ok {toks : List Token} {file : String} {pos : Nat} {t : Token}
    {pos2 : Nat} (h : peekT toks file pos = Except.ok (t, pos2)) :
    pos2 = pos ∧ peekRaw toks pos = some t := by
  cases hp : peekRaw toks pos with
  | none =>
    simp only [peekT, hp] at h
    cases h
  | some t2 =>
    simp only [peekT, hp, Except.ok.injEq, Prod.mk.injEq] at h
    obtain ⟨rfl, rfl⟩ := h
    exact ⟨rfl, rfl⟩

theorem lastTok_ok {toks : List Token} {pos : Nat} {r : Option Token}
    {pos2 : Nat} (h : lastTok toks pos = Except.ok (r, pos2)) :
    pos2 = pos ∧ r = toks.get? (pos - 1) := by
  simp only [lastTok, Except.ok.injEq, Prod.mk.injEq] at h
  obtain ⟨rfl, rfl⟩ := h
  exact ⟨rfl, rfl⟩

theorem consumeT_ok {toks : List Token} {file : String} {ty : TokType}
    {v : Option TokValue} {pos : Nat} {t : Token} {pos2 : Nat}
    (h : consumeT toks file ty v pos = Except.ok (t, pos2)) :
    peekRaw toks pos = some t ∧ t.type = ty ∧ (∀ w ∈ v, t.value = w) ∧
      pos2 = pos + 1 := by
  cases hp : peekRaw toks pos with
  | none =>
    simp only [consumeT, hp] at h
    cases h
  | some t2 =>
    simp only [consumeT, hp] at h
    split at h
    · rename_i hc
      simp only [Except.ok.injEq, Prod.mk.injEq] at h
      obtain ⟨rfl, rfl⟩ := h
      exact ⟨rfl, hc.1, hc.2, rfl⟩
    · cases h

theorem matchT_ok {toks : List Token} {file : String} {ty : TokType}
    {v : Option TokValue} {pos : Nat} {r : Option Token} {pos2 : Nat}
    (h : matchT toks file ty v pos = Except.ok (r, pos2)) :
    (r = none ∧ pos2 = pos) ∨
      (∃ t, r = some t ∧ peekRaw toks pos = some t ∧ t.type = ty ∧
        (∀ w ∈ v, t.value = w) ∧ pos2 = pos + 1) := by
  cases hp : peekRaw toks pos with
  | none =>
    simp only [matchT, hp] at h
    cases h
  | some t2 =>
    simp only [matchT, hp] at h
    split at h
    · rename_i hc
      simp only [Except.ok.injEq, Prod.mk.injEq] at h
      obtain ⟨rfl, rfl⟩ := h
      exact Or.inr ⟨t2, rfl, rfl, hc.1, hc.2, rfl⟩
    · simp only [Except.ok.injEq, Prod.mk.injEq] at h
      obtain ⟨rfl, rfl⟩ := h
      exact Or.inl ⟨rfl, rfl⟩

/-! Shape lemmas for C4. -/

theorem parseInput_shape (toks : List Token) (file : String) (fuel pos : Nat)
    (st : Stmt) (pos2 : Nat)
    (h : parseInput toks file fuel pos = Except.ok (st, pos2)) :
    ∃ t0 nm pr, peekRaw toks pos = some t0 ∧ t0.type = TokType.INPUT ∧
      st = Stmt.inputS nm pr (locFromTok t0) := by
  match fuel with
  | 0 => cases h
  | f + 1 =>
    simp only [parseInput] at h
    obtain ⟨start, p1, h1, h⟩ := bind_ok h
    obtain ⟨id, p2, h2, h⟩ := bind_ok h
    obtain ⟨m, p3, h3, h⟩ := bind_ok h
    obtain ⟨hst, _⟩ := pure_ok h
    obtain ⟨hpk, hty, _, _⟩ := consumeT_ok h1
    exact ⟨start, asStr id.value, m.map (fun t2 => asStr t2.value),
      hpk, hty, hst.symm⟩

theorem parsePrimary_not_unary (toks : List Token) (file : String)
    (fuel pos : Nat) (e : Expr) (pos2 : Nat)
    (h : parsePrimary toks file fuel pos = Except.ok (e, pos2)) :
    ∀ o a l, e ≠ Expr.unary o a l := by
  match fuel with
  | 0 => cases h
  | f + 1 =>
    simp only [parsePrimary] at h
    obtain ⟨tok, p0, h0, h⟩ := bind_ok h
    obtain ⟨m1, p1, h1, h⟩ := bind_ok h
    cases m1 with
    | some t =>
      obtain ⟨he, _⟩ := pure_ok h
      intro o a l hc
      rw [← he] at hc
      cases hc
    | none =>
      obtain ⟨m2, p2, h2, h⟩ := bind_ok h
      cases m2 with
      | some t =>
        obtain ⟨he, _⟩ := pure_ok h
        intro o a l hc
        rw [← he] at hc
        cases hc
      | none =>
        obtain ⟨m3, p3, h3, h⟩ := bind_ok h
        cases m3 with
        | some t =>
          obtain ⟨he, _⟩ := pure_ok h
          intro o a l hc
          rw [← he] at hc
          cases hc
        | none =>
          obtain ⟨m4, p4, h4, h⟩ := bind_ok h
          cases m4 with
          | some t =>
            obtain ⟨e2, p5, h5, h⟩ := bind_ok h
            obtain ⟨t2, p6, h6, h⟩ := bind_ok h
            obtain ⟨he, _⟩ := pure_ok h
            intro o a l hc
            rw [← he] at hc
            cases hc
          | none => exact absurd h (pThrow_ok)

theorem parseUnary_shape (toks : List Token) (file : String)
    (fuel pos : Nat) (op : String) (arg : Expr) (loc : Loc) (pos2 : Nat)
    (h : parseUnary toks file fuel pos = Except.ok (Expr.unary op arg loc, pos2)) :
    ∃ tp, toks.get? (pos2 - 1) = some tp ∧
      loc = ⟨tokPos tp, arg.loc.stop⟩ := by
  match fuel with
  | 0 => cases h
  | f + 1 =>
    simp only [parseUnary] at h
    obtain ⟨m1, p1, h1, h⟩ := bind_ok h
    cases m1 with
    | some t =>
      obtain ⟨right, p2, h2, h⟩ := bind_ok h
      obtain ⟨tp, p3, h3, h⟩ := bind_ok h
      obtain ⟨hp3, htp⟩ := lastTok_ok h3
      subst hp3
      cases tp with
      | none => exact absurd h (pThrow_ok)
      | some tpv =>
        obtain ⟨he, hpos⟩ := pure_ok h
        injection he with ho ha hl
        subst hpos
        subst ha
        exact ⟨tpv, by rw [← htp], by rw [← hl]; rfl⟩
    | none =>
      obtain ⟨m2, p2, h2, h⟩ := bind_ok h
      cases m2 with
      | some t =>
        obtain ⟨right, p3, h3, h⟩ := bind_ok h
        obtain ⟨tp, p4, h4, h⟩ := bind_ok h
        obtain ⟨hp4, htp⟩ := lastTok_ok h4
        subst hp4
        cases tp with
        | none => exact absurd h (pThrow_ok)
        | some tpv =>
          obtain ⟨he, hpos⟩ := pure_ok h
          injection he with ho ha hl
          subst hpos
          subst ha
          exact ⟨tpv, by rw [← htp], by rw [← hl]; rfl⟩
      | none =>
        exact absurd (parsePrimary_not_unary toks file f p2 _ pos2 h op arg loc)
          (by intro hc; exact hc rfl)

/-! Advancement invariant machinery for C10. -/

theorem adv_pPure {α : Type} (toks : List Token) (a : α) :
    Advances toks (pPure a) := by
  intro pos b pos2 h
  obtain ⟨_, rfl⟩ := pure_ok h
  exact ⟨Nat.le_refl _, fun k t hk1 hk2 _ =>
    absurd (Nat.lt_of_le_of_lt hk1 hk2) (Nat.lt_irrefl _)⟩

theorem adv_pThrow {α : Type} (toks : List Token) (e : QastError) :
    Advances toks (pThrow e : ParserM α) := by
  intro pos b pos2 h
  cases h

theorem adv_bind {α β : Type} {toks : List Token} {m : ParserM α}
    {g : α → ParserM β} (hm : Advances toks m)
    (hg : ∀ a, Advances toks (g a)) : Advances toks (m >>= g) := by
  intro pos b pos2 h
  obtain ⟨a, pos1, h1, h2⟩ := bind_ok h
  obtain ⟨hle1, hcov1⟩ := hm pos a pos1 h1
  obtain ⟨hle2, hcov2⟩ := hg a pos1 b pos2 h2
  refine ⟨Nat.le_trans hle1 hle2, ?_⟩
  intro k t hk1 hk2 hg2
  by_cases hk : k < pos1
  · exact hcov1 k t hk1 hk hg2
  · exact hcov2 k t (Nat.le_of_not_lt hk) hk2 hg2

theorem adv_peekT (toks : List Token) (file : String) :
    Advances toks (peekT toks file) := by
  intro pos b pos2 h
  obtain ⟨rfl, _⟩ := peekT_ok h
  exact ⟨Nat.le_refl _, fun k t hk1 hk2 _ =>
    absurd (Nat.lt_of_le_of_lt hk1 hk2) (Nat.lt_irrefl _)⟩

theorem adv_lastTok (toks : List Token) :
    Advances toks (lastTok toks) := by
  intro pos b pos2 h
  obtain ⟨rfl, _⟩ := lastTok_ok h
  exact ⟨Nat.le_refl _, fun k t hk1 hk2 _ =>
    absurd (Nat.lt_of_le_of_lt hk1 hk2) (Nat.lt_irrefl _)⟩

theorem sellTok_of_pat {ty : TokType} {v : Option TokValue} (hp : PatOk ty v)
    {t : Token} (hty : t.type = ty) (hval : ∀ w ∈ v, t.value = w) :
    SellTok t := by
  constructor
  · rw [hty]
    exact hp.1
  · rintro ⟨hop, hvv⟩
    obtain ⟨s, hv, hs1, hs2⟩ := hp.2 (by rw [← hty]; exact hop)
    have hv2 : t.value = TokValue.str s := hval _ (by rw [hv]; rfl)
    cases hvv with
    | inl hh =>
      rw [hv2] at hh
      injection hh with hh2
      exact hs1 hh2
    | inr hh =>
      rw [hv2] at hh
      injection hh with hh2
      exact hs2 hh2

theorem adv_consumeT {toks : List Token} {file : String} {ty : TokType}
    {v : Option TokValue} (hp : PatOk ty v) :
    Advances toks (consumeT toks file ty v) := by
  intro pos t pos2 h
  obtain ⟨hpk, hty, hval, rfl⟩ := consumeT_ok h
  refine ⟨Nat.le_succ _, ?_⟩
  intro k t2 hk1 hk2 hg
  have hkp : k = pos := Nat.le_antisymm (Nat.lt_succ_iff.mp hk2) hk1
  subst hkp
  have ht2 : t2 = t := by
    simp only [peekRaw, hg] at hpk
    injection hpk
  subst ht2
  exact sellTok_of_pat hp hty hval

theorem adv_matchT {toks : List Token} {file : String} {ty : TokType}
    {v : Option TokValue} (hp : PatOk ty v) :
    Advances toks (matchT toks file ty v) := by
  intro pos r pos2 h
  rcases matchT_ok h with ⟨_, rfl⟩ | ⟨t, _, hpk, hty, hval, rfl⟩
  · exact ⟨Nat.le_refl _, fun k t hk1 hk2 _ =>
      absurd (Nat.lt_of_le_of_lt hk1 hk2) (Nat.lt_irrefl _)⟩
  · refine ⟨Nat.le_succ _, ?_⟩
    intro k t2 hk1 hk2 hg
    have hkp : k = pos := Nat.le_antisymm (Nat.lt_succ_iff.mp hk2) hk1
    subst hkp
    have ht2 : t2 = t := by
      simp only [peekRaw, hg] at hpk
      injection hpk
    subst ht2
    exact sellTok_of_pat hp hty hval

theorem patOk_simple (ty : TokType) (hne : ty ≠ TokType.EOF)
    (hnop : ty ≠ TokType.OP) (v : Option TokValue) : PatOk ty v :=
  ⟨hne, fun hc => absurd hc hnop⟩

theorem patOk_op (s : String) (h1 : s ≠ "&&") (h2 : s ≠ "||") :
    PatOk TokType.OP (opV s) :=
  ⟨by decide, fun _ => ⟨s, rfl, h1, h2⟩⟩

theorem adv_expr (toks : List Token) (file : String) : ∀ fuel,
    Advances toks (parsePrimary toks file fuel) ∧
    Advances toks (parseUnary toks file fuel) ∧
    (∀ e, Advances toks (parseFactorLoop toks file fuel e)) ∧
    Advances toks (parseFactor toks file fuel) ∧
    (∀ e, Advances toks (parseTermLoop toks file fuel e)) ∧
    Advances toks (parseTerm toks file fuel) ∧
    (∀ e, Advances toks (parseComparisonLoop toks file fuel e)) ∧
    Advances toks (parseComparison toks file fuel) ∧
    (∀ e, Advances toks (parseEqualityLoop toks file fuel e)) ∧
    Advances toks (parseEquality toks file fuel) ∧
    Advances toks (parseExpression toks file fuel) := by
  intro fuel
  induction fuel with
  | zero =>
    exact ⟨adv_pThrow _ _, adv_pThrow _ _, fun e => adv_pThrow _ _,
      adv_pThrow _ _, fun e => adv_pThrow _ _, adv_pThrow _ _,
      fun e => adv_pThrow _ _, adv_pThrow _ _, fun e => adv_pThrow _ _,
      adv_pThrow _ _, adv_pThrow _ _⟩
  | succ f ih =>
    obtain ⟨ihPrim, ihUn, ihFL, ihF, ihTL, ihT, ihCL, ihC, ihEL, ihE, ihX⟩ := ih
    refine ⟨?_, ?_, fun e => ?_, ?_, fun e => ?_, ?_, fun e => ?_, ?_,
      fun e => ?_, ?_, ?_⟩
    · simp only [parsePrimary]
      refine adv_bind (adv_peekT toks file) (fun tok => ?_)
      refine adv_bind (adv_matchT (patOk_simple _ (by decide) (by decide) _))
        (fun m1 => ?_)
      cases m1 with
      | some t => exact adv_pPure _ _
      | none =>
        refine adv_bind (adv_matchT (patOk_simple _ (by decide) (by decide) _))
          (fun m2 => ?_)
        cases m2 with
        | some t => exact adv_pPure _ _
        | none =>
          refine adv_bind
            (adv_matchT (patOk_simple _ (by decide) (by decide) _))
            (fun m3 => ?_)
          cases m3 with
          | some t => exact adv_pPure _ _
          | none =>
            refine adv_bind (adv_matchT (patOk_op "(" (by decide) (by decide)))
              (fun m4 => ?_)
            cases m4 with
            | some t =>
              refine adv_bind ihX (fun e => ?_)
              refine adv_bind
                (adv_consumeT (patOk_op ")" (by decide) (by decide)))
                (fun t2 => ?_)
              exact adv_pPure _ _
            | none => exact adv_pThrow _ _
    · simp only [parseUnary]
      refine adv_bind (adv_matchT (patOk_op "!" (by decide) (by decide)))
        (fun m1 => ?_)
      cases m1 with
      | some t =>
        refine adv_bind ihUn (fun right => ?_)
        refine adv_bind (adv_lastTok toks) (fun tp => ?_)
        cases tp with
        | none => exact adv_pThrow _ _
        | some tpv => exact adv_pPure _ _
      | none =>
        refine adv_bind (adv_matchT (patOk_op "-" (by decide) (by decide)))
          (fun m2 => ?_)
        cases m2 with
        | some t =>
          refine adv_bind ihUn (fun right => ?_)
          refine adv_bind (adv_lastTok toks) (fun tp => ?_)
          cases tp with
          | none => exact adv_pThrow _ _
          | some tpv => exact adv_pPure _ _
        | none => exact ihPrim
    · simp only [parseFactorLoop]
      refine adv_bind (adv_matchT (patOk_op "*" (by decide) (by decide)))
        (fun m1 => ?_)
      cases m1 with
      | some t => exact adv_bind ihUn (fun right => ihFL _)
      | none =>
        refine adv_bind (adv_matchT (patOk_op "/" (by decide) (by decide)))
          (fun m2 => ?_)
        cases m2 with
        | some t => exact adv_bind ihUn (fun right => ihFL _)
        | none =>
          refine adv_bind (adv_matchT (patOk_op "%" (by decide) (by decide)))
            (fun m3 => ?_)
          cases m3 with
          | some t => exact adv_bind ihUn (fun right => ihFL _)
          | none => exact adv_pPure _ _
    · simp only [parseFactor]
      exact adv_bind ihUn (fun e => ihFL e)
    · simp only [parseTermLoop]
      refine adv_bind (adv_matchT (patOk_op "+" (by decide) (by decide)))
        (fun m1 => ?_)
      cases m1 with
      | some t => exact adv_bind ihF (fun right => ihTL _)
      | none =>
        refine adv_bind (adv_matchT (patOk_op "-" (by decide) (by decide)))
          (fun m2 => ?_)
        cases m2 with
        | some t => exact adv_bind ihF (fun right => ihTL _)
        | none => exact adv_pPure _ _
    · simp only [parseTerm]
      exact adv_bind ihF (fun e => ihTL e)
    · simp only [parseComparisonLoop]
      refine adv_bind (adv_matchT (patOk_op ">" (by decide) (by decide)))
        (fun m1 => ?_)
      cases m1 with
      | some t => exact adv_bind ihT (fun right => ihCL _)
      | none =>
        refine adv_bind (adv_matchT (patOk_op "<" (by decide) (by decide)))
          (fun m2 => ?_)
        cases m2 with
        | some t => exact adv_bind ihT (fun right => ihCL _)
        | none =>
          refine adv_bind (adv_matchT (patOk_op ">=" (by decide) (by decide)))
            (fun m3 => ?_)
          cases m3 with
          | some t => exact adv_bind ihT (fun right => ihCL _)
          | none =>
            refine adv_bind
              (adv_matchT (patOk_op "<=" (by decide) (by decide)))
              (fun m4 => ?_)
            cases m4 with
            | some t => exact adv_bind ihT (fun right => ihCL _)
            | none => exact adv_pPure _ _
    · simp only [parseComparison]
      exact adv_bind ihT (fun e => ihCL e)
    · simp only [parseEqualityLoop]
      refine adv_bind (adv_matchT (patOk_op "==" (by decide) (by decide)))
        (fun m1 => ?_)
      cases m1 with
      | some t => exact adv_bind ihC (fun right => ihEL _)
      | none =>
        refine adv_bind (adv_matchT (patOk_op "!=" (by decide) (by decide)))
          (fun m2 => ?_)
        cases m2 with
        | some t => exact adv_bind ihC (fun right => ihEL _)
        | none => exact adv_pPure _ _
    · simp only [parseEquality]
      exact adv_bind ihC (fun e => ihEL e)
    · simp only [parseExpression]
      exact ihE

theorem adv_stmt (toks : List Token) (file : String) : ∀ fuel,
    Advances toks (parsePrint toks file fuel) ∧
    Advances toks (parseSet toks file fuel) ∧
    Advances toks (parseInput toks file fuel) ∧
    Advances toks (parseIf toks file fuel) ∧
    Advances toks (parseLoop toks file fuel) ∧
    Advances toks (parseWhile toks file fuel) ∧
    (∀ acc, Advances toks (parseFnParams toks file fuel acc)) ∧
    Advances toks (parseFn toks file fuel) ∧
    Advances toks (parseReturn toks file fuel) ∧
    Advances toks (parseStatement toks file fuel) ∧
    Advances toks (parseTopLoop toks file fuel) := by
  intro fuel
  induction fuel with
  | zero =>
    exact ⟨adv_pThrow _ _, adv_pThrow _ _, adv_pThrow _ _, adv_pThrow _ _,
      adv_pThrow _ _, adv_pThrow _ _, fun acc => adv_pThrow _ _,
      adv_pThrow _ _, adv_pThrow _ _, adv_pThrow _ _, adv_pThrow _ _⟩
  | succ f ih =>
    obtain ⟨ihPr, ihSe, ihIn, ihIf, ihLo, ihWh, ihFP, ihFn, ihRe, ihSt, ihTL⟩ := ih
    have hexp : Advances toks (parseExpression toks file f) :=
      (adv_expr toks file f).2.2.2.2.2.2.2.2.2.2
    refine ⟨?_, ?_, ?_, ?_, ?_, ?_, fun acc => ?_, ?_, ?_, ?_, ?_⟩
    · simp only [parsePrint]
      refine adv_bind (adv_consumeT (patOk_simple _ (by decide) (by decide) _))
        (fun start => ?_)
      exact adv_bind hexp (fun arg => adv_pPure _ _)
    · simp only [parseSet]
      refine adv_bind (adv_consumeT (patOk_simple _ (by decide) (by decide) _))
        (fun start => ?_)
      refine adv_bind (adv_consumeT (patOk_simple _ (by decide) (by decide) _))
        (fun id => ?_)
      refine adv_bind (adv_consumeT (patOk_op "=" (by decide) (by decide)))
        (fun t2 => ?_)
      exact adv_bind hexp (fun v => adv_pPure _ _)
    · simp only [parseInput]
      refine adv_bind (adv_consumeT (patOk_simple _ (by decide) (by decide) _))
        (fun start => ?_)
      refine adv_bind (adv_consumeT (patOk_simple _ (by decide) (by decide) _))
        (fun id => ?_)
      refine adv_bind (adv_matchT (patOk_simple _ (by decide) (by decide) _))
        (fun m => ?_)
      exact adv_pPure _ _
    · simp only [parseIf]
      refine adv_bind (adv_consumeT (patOk_simple _ (by decide) (by decide) _))
        (fun start => ?_)
      refine adv_bind hexp (fun t2 => ?_)
      refine adv_bind (adv_consumeT (patOk_simple _ (by decide) (by decide) _))
        (fun t3 => ?_)
      exact adv_pPure _ _
    · simp only [parseLoop]
      refine adv_bind (adv_consumeT (patOk_simple _ (by decide) (by decide) _))
        (fun start => ?_)
      refine adv_bind hexp (fun t2 => ?_)
      refine adv_bind (adv_consumeT (patOk_simple _ (by decide) (by decide) _))
        (fun t3 => ?_)
      exact adv_pPure _ _
    · simp only [parseWhile]
      refine adv_bind (adv_consumeT (patOk_simple _ (by decide) (by decide) _))
        (fun start => ?_)
      refine adv_bind hexp (fun t2 => ?_)
      refine adv_bind (adv_consumeT (patOk_simple _ (by decide) (by decide) _))
        (fun t3 => ?_)
      exact adv_pPure _ _
    · simp only [parseFnParams]
      refine adv_bind (adv_matchT (patOk_simple _ (by decide) (by decide) _))
        (fun m => ?_)
      cases m with
      | some t => exact ihFP _
      | none => exact adv_pPure _ _
    · simp only [parseFn]
      refine adv_bind (adv_consumeT (patOk_simple _ (by decide) (by decide) _))
        (fun start => ?_)
      refine adv_bind (adv_consumeT (patOk_simple _ (by decide) (by decide) _))
        (fun id => ?_)
      refine adv_bind (ihFP []) (fun params => ?_)
      refine adv_bind (adv_consumeT (patOk_simple _ (by decide) (by decide) _))
        (fun t3 => ?_)
      exact adv_pPure _ _
    · simp only [parseReturn]
      refine adv_bind (adv_consumeT (patOk_simple _ (by decide) (by decide) _))
        (fun start => ?_)
      refine adv_bind (adv_peekT toks file) (fun tok => ?_)
      split
      · exact adv_pPure _ _
      · exact adv_bind hexp (fun arg => adv_pPure _ _)
    · simp only [parseStatement]
      refine adv_bind (adv_peekT toks file) (fun tok => ?_)
      rcases tok with ⟨ty, val, ln, col, fl⟩
      cases ty
      case PRINT => exact ihPr
      case SET => exact ihSe
      case INPUT => exact ihIn
      case IF => exact ihIf
      case LOOP => exact ihLo
      case WHILE => exact ihWh
      case FN => exact ihFn
      case RETURN => exact ihRe
      all_goals exact adv_bind hexp (fun e => adv_pPure _ _)
    · simp only [parseTopLoop]
      refine adv_bind (adv_peekT toks file) (fun tok => ?_)
      split
      · exact adv_pPure _ _
      · refine adv_bind ihSt (fun s => ?_)
        exact adv_bind ihTL (fun rest => adv_pPure _ _)

theorem parseTopLoop_eof (toks : List Token) (file : String) :
    ∀ fuel pos body pos2,
      parseTopLoop toks file fuel pos = Except.ok (body, pos2) →
      ∃ t, peekRaw toks pos2 = some t ∧ t.type = TokType.EOF := by
  intro fuel
  induction fuel with
  | zero =>
    intro pos body pos2 h
    cases h
  | succ f ih =>
    intro pos body pos2 h
    simp only [parseTopLoop] at h
    obtain ⟨tok, p1, h1, hif⟩ := bind_ok h
    obtain ⟨rfl, hpk⟩ := peekT_ok h1
    split at hif
    · rename_i hcond
      obtain ⟨_, rfl⟩ := pure_ok hif
      exact ⟨tok, hpk, hcond⟩
    · obtain ⟨s, p2, h2, hif2⟩ := bind_ok hif
      obtain ⟨rest, p3, h3, hif3⟩ := bind_ok hif2
      obtain ⟨_, rfl⟩ := pure_ok hif3
      exact ih p2 rest p3 h3

theorem lex_split (src f : String) (toks : List Token)
    (h : lex src f = Except.ok toks) :
    ∃ pre,
      toks = pre ++ [⟨TokType.EOF, TokValue.null, (splitLines src).length, 1, f⟩] ∧
      ∀ t ∈ pre, t.type ≠ TokType.EOF := by
  simp only [lex] at h
  cases hll : lexLines f (splitLines src) 0 false with
  | error e =>
    rw [hll] at h
    cases h
  | ok ts =>
    rw [hll] at h
    injection h with h2
    subst h2
    refine ⟨ts, rfl, ?_⟩
    intro t ht
    exact (lexLines_mem f (splitLines src) 0 false ts hll t ht).1

/-! Claim C4. -/

/-- Claim C4, counterexample (corrected): parsing the input statement with
a prompt consumes the INPUT keyword, the identifier and the STRING prompt
token at line 2 column 9, but the produced InputStatement loc starts and
ends at (2,1) — the recorded end node is the identifier token, which has
no loc property, so the end falls back to the start instead of covering
the prompt (whether the prompt token end position is read as its start
column 9 or one past its text at column 12). -/
theorem claim4_counterexample :
    lex "new qas\nq.input x \"hi\"" "f" = Except.ok
      [⟨TokType.INPUT, TokValue.str "input", 2, 1, "f"⟩,
       ⟨TokType.IDENT, TokValue.str "x", 2, 7, "f"⟩,
       ⟨TokType.STRING, TokValue.str "hi", 2, 9, "f"⟩,
       ⟨TokType.EOF, TokValue.null, 2, 1, "f"⟩] ∧
    parse
      [⟨TokType.INPUT, TokValue.str "input", 2, 1, "f"⟩,
       ⟨TokType.IDENT, TokValue.str "x", 2, 7, "f"⟩,
       ⟨TokType.STRING, TokValue.str "hi", 2, 9, "f"⟩,
       ⟨TokType.EOF, TokValue.null, 2, 1, "f"⟩] "f" =
      Except.ok ⟨[Stmt.inputS "x" (some "hi") ⟨⟨2, 1⟩, ⟨2, 1⟩⟩]⟩ ∧
    (⟨⟨2, 1⟩, ⟨2, 1⟩⟩ : Loc).stop ≠ (⟨2, 9⟩ : Pos) ∧
    (⟨⟨2, 1⟩, ⟨2, 1⟩⟩ : Loc).stop ≠ (⟨2, 12⟩ : Pos) := by
  exact ⟨by decide, rfl, by decide, by decide⟩

/-- Claim C4, amended: a node loc starts at the start position of the
first consumed token and ends at the loc end of the last consumed
sub-expression only when the production records an expression as its end
node; when the recorded end node is a bare token the end falls back to the
start — in particular every successfully parsed InputStatement has a loc
that starts and stops at the INPUT keyword position, covering neither the
identifier nor the prompt — and a UnaryExpression loc starts at the start
position of the last token consumed by its operand (the token before the
final cursor position), not at its operator token, and stops at the
operand loc end. -/
theorem claim4_amended :
    (∀ toks (file : String) fuel pos st pos2,
      parseInput toks file fuel pos = Except.ok (st, pos2) →
      ∃ t0 nm pr, peekRaw toks pos = some t0 ∧ t0.type = TokType.INPUT ∧
        st = Stmt.inputS nm pr (locFromTok t0)) ∧
    (∀ toks (file : String) fuel pos op arg loc pos2,
      parseUnary toks file fuel pos = Except.ok (Expr.unary op arg loc, pos2) →
      ∃ tp, toks.get? (pos2 - 1) = some tp ∧
        loc = ⟨tokPos tp, arg.loc.stop⟩) :=
  ⟨parseInput_shape, parseUnary_shape⟩

/-- Claim C4, witness: the shape facts instantiated on the two concrete
parses — the input statement with a prompt, whose loc collapses to the
INPUT token position, and a unary minus, whose loc starts at its operand
token. -/
theorem claim4_witness :
    (∃ t0 nm pr,
      peekRaw
        [⟨TokType.INPUT, TokValue.str "input", 2, 1, "f"⟩,
         ⟨TokType.IDENT, TokValue.str "x", 2, 7, "f"⟩,
         ⟨TokType.STRING, TokValue.str "hi", 2, 9, "f"⟩,
         ⟨TokType.EOF, TokValue.null, 2, 1, "f"⟩] 0 = some t0 ∧
      t0.type = TokType.INPUT ∧
      Stmt.inputS "x" (some "hi") ⟨⟨2, 1⟩, ⟨2, 1⟩⟩ =
        Stmt.inputS nm pr (locFromTok t0)) ∧
    (∃ tp,
      [⟨TokType.OP, TokValue.str "-", 1, 1, "f"⟩,
       ⟨TokType.NUMBER, TokValue.num (JsNumber.rat 5), 1, 3, "f"⟩,
       ⟨TokType.EOF, TokValue.null, 1, 1, "f"⟩].get? (2 - 1) = some tp ∧
      (⟨⟨1, 3⟩, ⟨1, 3⟩⟩ : Loc) =
        ⟨tokPos tp,
          (Expr.numberLit (JsNumber.rat 5) ⟨⟨1, 3⟩, ⟨1, 3⟩⟩).loc.stop⟩) := by
  constructor
  · exact claim4_amended.1
      [⟨TokType.INPUT, TokValue.str "input", 2, 1, "f"⟩,
       ⟨TokType.IDENT, TokValue.str "x", 2, 7, "f"⟩,
       ⟨TokType.STRING, TokValue.str "hi", 2, 9, "f"⟩,
       ⟨TokType.EOF, TokValue.null, 2, 1, "f"⟩] "f" 5 0
      (Stmt.inputS "x" (some "hi") ⟨⟨2, 1⟩, ⟨2, 1⟩⟩) 3 rfl
  · exact claim4_amended.2
      [⟨TokType.OP, TokValue.str "-", 1, 1, "f"⟩,
       ⟨TokType.NUMBER, TokValue.num (JsNumber.rat 5), 1, 3, "f"⟩,
       ⟨TokType.EOF, TokValue.null, 1, 1, "f"⟩] "f" 5 0 "-"
      (Expr.numberLit (JsNumber.rat 5) ⟨⟨1, 3⟩, ⟨1, 3⟩⟩)
      ⟨⟨1, 3⟩, ⟨1, 3⟩⟩ 2 rfl

/-! Claim C1. -/

/-- Claim C1, counterexample (corrected): the source consisting of the one
line new qas foo has a first effective line different from the exact
header text new qas, so the claim requires a header error; but
tokenization succeeds (the code tests only that the line starts with the
header text). -/
theorem claim1_counterexample :
    lex "new qas foo" "f" =
      Except.ok [⟨TokType.EOF, TokValue.null, 1, 1, "f"⟩] ∧
    firstEffective "new qas foo" = some (1, "new qas foo") ∧
    "new qas foo" ≠ "new qas" := by
  exact ⟨by decide, by decide, by decide⟩

/-- Claim C1, amended: tokenization fails with the header error — message,
file, the 1-based number of the first effective line, column 1 and the
fixed hint — exactly when the first trimmed, non-comment, non-empty line
does not START WITH the text new qas; and when tokenization succeeds, the
header line produces no tokens: every non-EOF token comes from a later
line. -/
theorem claim1_amended (src f : String) :
    (∀ i, lex src f = Except.error (headerErrorAt f i) ↔
      ∃ t, firstEffective src = some (i, t) ∧
        strHasLead t "new qas" = false) ∧
    (∀ toks i t, lex src f = Except.ok toks →
      firstEffective src = some (i, t) →
      ∀ tk ∈ toks, tk.type ≠ TokType.EOF → i < tk.line) := by
  constructor
  · intro i
    cases hll : lexLines f (splitLines src) 0 false with
    | error e =>
      simp only [lex, hll]
      constructor
      · intro h
        injection h with h2
        subst h2
        exact (lexLines_header_iff f (splitLines src) 0 i).mp hll
      · intro hex
        have := (lexLines_header_iff f (splitLines src) 0 i).mpr hex
        rw [hll] at this
        injection this with h2
        rw [h2]
    | ok ts =>
      simp only [lex, hll]
      constructor
      · intro h
        cases h
      · intro hex
        have := (lexLines_header_iff f (splitLines src) 0 i).mpr hex
        rw [hll] at this
        cases this
  · intro toks i t hok hfe tk htk hne
    simp only [lex] at hok
    cases hll : lexLines f (splitLines src) 0 false with
    | error e =>
      rw [hll] at hok
      cases hok
    | ok ts =>
      rw [hll] at hok
      injection hok with h2
      subst h2
      rcases List.mem_append.mp htk with hm | hm
      · exact lexLines_header_tokens f (splitLines src) 0 ts i t hll hfe tk hm
      · rcases List.mem_singleton.mp hm with rfl
        exact absurd rfl hne

/-- Claim C1, witness: a source whose first effective line is an
executable line fails with the header error at line 1, and in the
comment-led program the header sits at line 4 while the print token sits
at line 5, later than the header. -/
theorem claim1_witness :
    lex "q.print 1" "f" = Except.error (headerErrorAt "f" 1) ∧
    (4 : Nat) < 5 := by
  constructor
  · exact ((claim1_amended "q.print 1" "f").1 1).mpr
      ⟨"q.print 1", by decide, by decide⟩
  · exact (claim1_amended "\n# note\n\nnew qas\nq.print 1\n" "f").2
      [⟨TokType.PRINT, TokValue.str "print", 5, 1, "f"⟩,
       ⟨TokType.NUMBER, TokValue.num (JsNumber.rat 1), 5, 7, "f"⟩,
       ⟨TokType.EOF, TokValue.null, 6, 1, "f"⟩]
      4 "new qas" (by decide) (by decide)
      ⟨TokType.PRINT, TokValue.str "print", 5, 1, "f"⟩
      (by decide) (by decide)

/-! Claim C3. -/

/-- Claim C3, counterexample (corrected): the header error raised for a
source missing its header carries message, file, line, column and hint,
but reading its kind property yields the absent value, not a member of the
taxonomy — the error class stores no kind field. -/
theorem claim3_counterexample :
    lex "q.print 1" "f" =
      Except.error ⟨headerMsg, some "f", 1, 1, some headerHint⟩ ∧
    QastError.kindField ⟨headerMsg, some "f", 1, 1, some headerHint⟩ = none ∧
    (QastError.kindField
      ⟨headerMsg, some "f", 1, 1, some headerHint⟩).isSome = false := by
  exact ⟨by decide, rfl, rfl⟩

/-- Claim C3, amended: every structured error of the three stages carries
message, file, line, column and optional hint — tokenizer errors carry the
file identifier and 1-based positions — but no kind field: reading the
kind property of any raised error yields the absent value, and the five
taxonomy classes are distinguishable only through the message (and hint)
texts. -/
theorem claim3_amended :
    (∀ src f e, lex src f = Except.error e →
      e.kindField = none ∧ e.file = some f ∧ 1 ≤ e.line ∧ 1 ≤ e.column) ∧
    (∀ toks f e, parse toks f = Except.error e → e.kindField = none) ∧
    (∀ st n loc (e : QastError),
      evalExpression st (Expr.ident n loc) = Except.error (RtErr.qast e) →
      e.kindField = none) := by
  refine ⟨?_, ?_, ?_⟩
  · intro src f e h
    simp only [lex] at h
    cases hll : lexLines f (splitLines src) 0 false with
    | error e2 =>
      rw [hll] at h
      injection h with h2
      subst h2
      have := lexLines_err f (splitLines src) 0 false e2 hll
      exact ⟨rfl, this.1, this.2.1, this.2.2.1⟩
    | ok ts =>
      rw [hll] at h
      cases h
  · intro toks f e h
    rfl
  · intro st n loc e h
    rfl

/-- Claim C3, witness: a concrete tokenizer error, parser error and
runtime error, each with the absent kind. -/
theorem claim3_witness :
    (QastError.kindField ⟨headerMsg, some "f", 1, 1, some headerHint⟩ = none ∧
      (⟨headerMsg, some "f", 1, 1, some headerHint⟩ : QastError).file = some "f" ∧
      1 ≤ (⟨headerMsg, some "f", 1, 1, some headerHint⟩ : QastError).line ∧
      1 ≤ (⟨headerMsg, some "f", 1, 1, some headerHint⟩ : QastError).column) ∧
    QastError.kindField
      ⟨"Expected OP(=) but found EOF ", some "f", 2, 1, none⟩ = none ∧
    QastError.kindField
      ⟨"Undefined variable \x27y\x27", none, 1, 2, none⟩ = none := by
  refine ⟨claim3_amended.1 "q.print 1" "f" _ (by decide),
    claim3_amended.2.1
      [⟨TokType.SET, TokValue.str "set", 2, 1, "f"⟩,
       ⟨TokType.IDENT, TokValue.str "x", 2, 5, "f"⟩,
       ⟨TokType.EOF, TokValue.null, 2, 1, "f"⟩] "f" _ rfl,
    claim3_amended.2.2 (createRuntime false []) "y" ⟨⟨1, 2⟩, ⟨1, 2⟩⟩ _
      (by decide)⟩

/-! Claim C8. -/

/-- Claim C8 (confirmed): on every successful tokenization the token list
consists of EOF-free tokens followed by exactly one EOF token, which is
the last element and is positioned at the line count of the source with
column 1. -/
theorem claim8 (src f : String) (toks : List Token)
    (h : lex src f = Except.ok toks) :
    toks.getLast? =
      some ⟨TokType.EOF, TokValue.null, (splitLines src).length, 1, f⟩ ∧
    ∃ pre,
      toks = pre ++ [⟨TokType.EOF, TokValue.null, (splitLines src).length, 1, f⟩] ∧
      ∀ t ∈ pre, t.type ≠ TokType.EOF := by
  simp only [lex] at h
  cases hll : lexLines f (splitLines src) 0 false with
  | error e =>
    rw [hll] at h
    cases h
  | ok ts =>
    rw [hll] at h
    injection h with h2
    subst h2
    refine ⟨List.getLast?_concat _, ts, rfl, ?_⟩
    intro t ht
    exact (lexLines_mem f (splitLines src) 0 false ts hll t ht).1

/-- Claim C8, witness: the token list of a two-line program ends in the
single EOF token at line 3 (the line count including the empty last line),
column 1. -/
theorem claim8_witness :
    ([⟨TokType.PRINT, TokValue.str "print", 2, 1, "f"⟩,
      ⟨TokType.NUMBER, TokValue.num (JsNumber.rat 1), 2, 7, "f"⟩,
      ⟨TokType.EOF, TokValue.null, 3, 1, "f"⟩] : List Token).getLast? =
      some ⟨TokType.EOF, TokValue.null,
        (splitLines "new qas\nq.print 1\n").length, 1, "f"⟩ :=
  (claim8 "new qas\nq.print 1\n" "f" _ (by decide)).1

/-! Claim C10. -/

/-- Claim C10 (confirmed): the tokenizer emits OP tokens for the
two-character logical operators, but no consume or match pattern of the
parser mentions them; consequently, whenever a tokenizer output contains
an OP token whose value is one of the two logical operators, parsing
fails — it never returns a Program.  The proof combines the cursor
invariant (a successful parse passes only over consumable tokens, and the
logical operator tokens are not consumable) with the termination condition
of the top-level loop (the final cursor looks at an EOF token, which in a
tokenizer output exists only past every other token). -/
theorem claim10 (src f : String) (toks : List Token) (i : Nat) (t : Token)
    (hlex : lex src f = Except.ok toks)
    (hi : toks.get? i = some t)
    (hty : t.type = TokType.OP)
    (hval : t.value = TokValue.str "&&" ∨ t.value = TokValue.str "||") :
    ∃ e, parse toks f = Except.error e := by
  cases hp : parseTopLoop toks f (16 * toks.length + 64) 0 with
  | error e =>
    exact ⟨e, by simp only [parse, hp]⟩
  | ok r =>
    exfalso
    rcases r with ⟨body, pos2⟩
    obtain ⟨pre, hsplit, hpre⟩ := lex_split src f toks hlex
    have hlen : toks.length = pre.length + 1 := by
      rw [hsplit]
      simp
    have hilt : i < toks.length := (List.get?_eq_some.mp hi).1
    have hipre : i < pre.length := by
      rcases Nat.lt_or_ge i pre.length with hcase | hcase
      · exact hcase
      · exfalso
        have hieq : i = pre.length := by omega
        subst hieq
        rw [hsplit, List.get?_append_right (Nat.le_refl _)] at hi
        simp only [Nat.sub_self, List.get?] at hi
        injection hi with hi2
        rw [← hi2] at hty
        cases hty
    have hadv := (adv_stmt toks f (16 * toks.length + 64)).2.2.2.2.2.2.2.2.2.2
    obtain ⟨hle, hcov⟩ := hadv 0 body pos2 hp
    obtain ⟨te, hpk, hte⟩ := parseTopLoop_eof toks f _ 0 body pos2 hp
    have hi2lt : i < pos2 := by
      by_cases hc : pos2 < toks.length
      · cases hg : toks.get? pos2 with
        | none =>
          have := List.get?_eq_none.mp hg
          omega
        | some tg =>
          simp only [peekRaw, hg] at hpk
          injection hpk with hpk2
          subst hpk2
          by_cases hc2 : pos2 < pre.length
          · exfalso
            rw [hsplit, List.get?_append hc2] at hg
            exact absurd hte (hpre tg (List.get?_mem hg))
          · omega
      · omega
    exact (hcov i t (Nat.zero_le _) hi2lt hi).2 ⟨hty, hval⟩

/-- Claim C10, witness: the tokenizer output for a set statement whose
right-hand side uses the logical conjunction operator contains the OP
token at index 4, and parsing that token list fails. -/
theorem claim10_witness :
    ∃ e, parse
      [⟨TokType.SET, TokValue.str "set", 2, 1, "f"⟩,
       ⟨TokType.IDENT, TokValue.str "x", 2, 5, "f"⟩,
       ⟨TokType.OP, TokValue.str "=", 2, 7, "f"⟩,
       ⟨TokType.NUMBER, TokValue.num (JsNumber.rat 1), 2, 9, "f"⟩,
       ⟨TokType.OP, TokValue.str "&&", 2, 11, "f"⟩,
       ⟨TokType.NUMBER, TokValue.num (JsNumber.rat 2), 2, 14, "f"⟩,
       ⟨TokType.EOF, TokValue.null, 2, 1, "f"⟩] "f" = Except.error e :=
  claim10 "new qas\nq.set x = 1 && 2" "f"
    [⟨TokType.SET, TokValue.str "set", 2, 1, "f"⟩,
     ⟨TokType.IDENT, TokValue.str "x", 2, 5, "f"⟩,
     ⟨TokType.OP, TokValue.str "=", 2, 7, "f"⟩,
     ⟨TokType.NUMBER, TokValue.num (JsNumber.rat 1), 2, 9, "f"⟩,
     ⟨TokType.OP, TokValue.str "&&", 2, 11, "f"⟩,
     ⟨TokType.NUMBER, TokValue.num (JsNumber.rat 2), 2, 14, "f"⟩,
     ⟨TokType.EOF, TokValue.null, 2, 1, "f"⟩] 4
    ⟨TokType.OP, TokValue.str "&&", 2, 11, "f"⟩
    (by decide) (by decide) (by decide) (Or.inl rfl)

/-! Claim C2. -/

/-- Claim C2, counterexample (corrected): the less-or-equal comparison of
the number 5 and the string of the digit 5 — values of unlike types —
evaluates to true, because the host relational comparison coerces the
string operand to a number; strict comparison without coercion between the
unlike types, as the claim states, would answer false. -/
theorem claim2_counterexample :
    applyBinary "<=" (Value.num (JsNumber.rat 5)) (Value.str "5") =
      Except.ok (Value.bool true) ∧
    evalExpression (createRuntime false [])
      (Expr.binary "<=" (Expr.numberLit (JsNumber.rat 5) ⟨⟨1, 1⟩, ⟨1, 1⟩⟩)
        (Expr.stringLit "5" ⟨⟨1, 1⟩, ⟨1, 1⟩⟩) ⟨⟨1, 1⟩, ⟨1, 1⟩⟩) =
      Except.ok (Value.bool true) ∧
    specStrictCompareMixed "<=" = Value.bool false ∧
    Value.bool true ≠ Value.bool false := by
  refine ⟨by decide, by decide, rfl, by decide⟩

/-- Claim C2, amended: the two equality operators do compare strictly —
for operand values of unlike types (one number, one string) equality is
false and inequality is true, with no coercion — but the four relational
operators coerce the string operand to a number rather than comparing
strictly. -/
theorem claim2_amended (x : JsNumber) (s : String) :
    applyBinary "==" (Value.num x) (Value.str s) = Except.ok (Value.bool false) ∧
    applyBinary "==" (Value.str s) (Value.num x) = Except.ok (Value.bool false) ∧
    applyBinary "!=" (Value.num x) (Value.str s) = Except.ok (Value.bool true) ∧
    applyBinary "!=" (Value.str s) (Value.num x) = Except.ok (Value.bool true) := by
  refine ⟨?_, ?_, ?_, ?_⟩ <;> simp [applyBinary, strictEq]

/-! Claim C5. -/

/-- Claim C5, counterexample (corrected): the claim quantifies over every
index holding a ReturnStatement; in a program whose body is a return of 1
followed by a return of 2, the claim instantiated at the second index
asserts the program result 2, but evaluation yields 1 — only the first
return wins. -/
theorem claim5_counterexample :
    evalStmts (createRuntime false [])
      [Stmt.returnS (some (Expr.numberLit (JsNumber.rat 1) ⟨⟨2, 10⟩, ⟨2, 10⟩⟩))
        ⟨⟨2, 1⟩, ⟨2, 10⟩⟩,
       Stmt.returnS (some (Expr.numberLit (JsNumber.rat 2) ⟨⟨3, 10⟩, ⟨3, 10⟩⟩))
        ⟨⟨3, 1⟩, ⟨3, 10⟩⟩] =
      Except.ok (createRuntime false [], some (Value.num (JsNumber.rat 1))) ∧
    some (Value.num (JsNumber.rat 1)) ≠ some (Value.num (JsNumber.rat 2)) := by
  exact ⟨by decide, by decide⟩

/-- Claim C5, amended: for the first ReturnStatement index i — that is,
whenever the statements before index i all evaluate to completion normally
(no earlier return fired and no error) — and the return argument
evaluates successfully (the absent argument yielding the null sentinel),
the program result is that value, and evaluation coincides with evaluation
of the body truncated just after index i, so no later statement has any
effect. -/
theorem claim5_amended (i : Nat) (body : List Stmt) (st0 st1 : RtState)
    (argOpt : Option Expr) (loc : Loc) (v : Value)
    (hi : body.get? i = some (Stmt.returnS argOpt loc))
    (hpre : evalStmts st0 (body.take i) = Except.ok (st1, none))
    (harg : evalReturnArg st1 argOpt = Except.ok v) :
    evalStmts st0 body =
      Except.ok (applyTrace st1 (Stmt.returnS argOpt loc), some v) ∧
    evalStmts st0 body = evalStmts st0 (body.take (i + 1)) := by
  induction i generalizing body st0 with
  | zero =>
    cases body with
    | nil => simp at hi
    | cons s rest =>
      simp only [List.take_zero, evalStmts] at hpre
      cases hpre
      simp only [List.get?] at hi
      cases hi
      have hsame : evalStatement st1 (Stmt.returnS argOpt loc) =
          Except.ok (applyTrace st1 (Stmt.returnS argOpt loc),
            Outcome.ret v) := by
        cases argOpt with
        | none =>
          simp only [evalReturnArg] at harg
          cases harg
          rfl
        | some a =>
          simp only [evalReturnArg] at harg
          have henv : evalExpression
              (applyTrace st1 (Stmt.returnS (some a) loc)) a =
              evalExpression st1 a :=
            evalExpression_env _ _ (applyTrace_envStack _ _) a
          simp only [evalStatement, henv, harg]
      constructor
      · simp only [evalStmts, hsame]
      · simp only [List.take_succ_cons, List.take_zero, evalStmts, hsame]
  | succ n ih =>
    cases body with
    | nil => simp at hi
    | cons s rest =>
      simp only [List.get?] at hi
      simp only [List.take_succ_cons, evalStmts] at hpre
      cases hstep : evalStatement st0 s with
      | error e => rw [hstep] at hpre; cases hpre
      | ok r =>
        rcases r with ⟨st2, oc⟩
        cases oc with
        | ret w => rw [hstep] at hpre; cases hpre
        | normal =>
          rw [hstep] at hpre
          have ihr := ih rest st2 hi hpre
          constructor
          · simp only [evalStmts, hstep]
            exact ihr.1
          · simp only [List.take_succ_cons, evalStmts, hstep]
            exact ihr.2

/-- Claim C5, witness: the program of the specification example — header,
then return of 7, then print of 99 — whose parsed body is the concrete
statement list below; its result is 7 and evaluation equals evaluation of
the one-statement truncation, and the full pipeline run confirms that
nothing is printed. -/
theorem claim5_witness :
    (evalStmts (createRuntime false [])
      [Stmt.returnS (some (Expr.numberLit (JsNumber.rat 7) ⟨⟨2, 8⟩, ⟨2, 8⟩⟩))
        ⟨⟨2, 1⟩, ⟨2, 8⟩⟩,
       Stmt.printS (Expr.numberLit (JsNumber.rat 99) ⟨⟨3, 7⟩, ⟨3, 7⟩⟩)
        ⟨⟨3, 1⟩, ⟨3, 7⟩⟩] =
      Except.ok (createRuntime false [], some (Value.num (JsNumber.rat 7))) ∧
    evalStmts (createRuntime false [])
      [Stmt.returnS (some (Expr.numberLit (JsNumber.rat 7) ⟨⟨2, 8⟩, ⟨2, 8⟩⟩))
        ⟨⟨2, 1⟩, ⟨2, 8⟩⟩,
       Stmt.printS (Expr.numberLit (JsNumber.rat 99) ⟨⟨3, 7⟩, ⟨3, 7⟩⟩)
        ⟨⟨3, 1⟩, ⟨3, 7⟩⟩] =
      evalStmts (createRuntime false [])
        ([Stmt.returnS (some (Expr.numberLit (JsNumber.rat 7) ⟨⟨2, 8⟩, ⟨2, 8⟩⟩))
          ⟨⟨2, 1⟩, ⟨2, 8⟩⟩,
         Stmt.printS (Expr.numberLit (JsNumber.rat 99) ⟨⟨3, 7⟩, ⟨3, 7⟩⟩)
          ⟨⟨3, 1⟩, ⟨3, 7⟩⟩].take 1)) ∧
    runSource "new qas\nq.return 7\nq.print 99\n" "f" [] =
      RunResult.ok (createRuntime false [])
        (some (Value.num (JsNumber.rat 7))) := by
  exact ⟨claim5_amended 0 _ _ (createRuntime false []) _ _
    (Value.num (JsNumber.rat 7)) rfl rfl rfl, by decide⟩

/-! Claim C6. -/

/-- Claim C6 (confirmed): evaluating an Identifier returns the value bound
in the innermost frame containing the name, and when no frame contains it,
fails with the undefined-variable runtime error positioned at the loc
start line and column of the identifier itself. -/
theorem claim6 (st : RtState) (n : String) (loc : Loc) :
    (∀ v, innermostVal st.envStack n = some v →
      evalExpression st (Expr.ident n loc) = Except.ok v) ∧
    (innermostVal st.envStack n = none →
      evalExpression st (Expr.ident n loc) =
        Except.error (RtErr.qast ⟨"Undefined variable \x27" ++ n ++ "\x27",
          none, loc.start.line, loc.start.column, none⟩)) := by
  constructor
  · intro v hv
    simp only [evalExpression, getVarStack_eq_innermost, hv]
  · intro hv
    simp only [evalExpression, getVarStack_eq_innermost, hv, undefVarErr]

/-- Claim C6, witness: a two-frame stack whose frames both bind x; the
inner binding wins, and an absent name fails at the identifier position. -/
theorem claim6_witness :
    evalExpression
      { envStack := [[("x", Value.num (JsNumber.rat 1))],
                     [("x", Value.num (JsNumber.rat 2))]]
        output := [], traceLog := [], inputs := [], trace := false }
      (Expr.ident "x" ⟨⟨3, 5⟩, ⟨3, 5⟩⟩) =
        Except.ok (Value.num (JsNumber.rat 2)) ∧
    evalExpression
      { envStack := [[("x", Value.num (JsNumber.rat 1))],
                     [("x", Value.num (JsNumber.rat 2))]]
        output := [], traceLog := [], inputs := [], trace := false }
      (Expr.ident "y" ⟨⟨4, 9⟩, ⟨4, 9⟩⟩) =
        Except.error (RtErr.qast ⟨"Undefined variable \x27" ++ "y" ++ "\x27",
          none, 4, 9, none⟩) := by
  constructor
  · exact (claim6 _ "x" _).1 (Value.num (JsNumber.rat 2)) (by decide)
  · exact (claim6 _ "y" _).2 (by decide)

/-! Claim C7. -/

/-- Claim C7 (confirmed): evaluating an IfStatement, LoopStatement,
WhileStatement or FunctionDef succeeds with the normal outcome, leaving
the frame stack, the printed output and the input queue unchanged (only
the trace diagnostic log can grow, when trace mode is on); and the
concrete program with a loop header line prints the value 1 exactly
once. -/
theorem claim7 :
    (∀ (st : RtState) tests alt loc,
      evalStatement st (Stmt.ifS tests alt loc) =
        Except.ok (applyTrace st (Stmt.ifS tests alt loc), Outcome.normal)) ∧
    (∀ (st : RtState) c b loc,
      evalStatement st (Stmt.loopS c b loc) =
        Except.ok (applyTrace st (Stmt.loopS c b loc), Outcome.normal)) ∧
    (∀ (st : RtState) t b loc,
      evalStatement st (Stmt.whileS t b loc) =
        Except.ok (applyTrace st (Stmt.whileS t b loc), Outcome.normal)) ∧
    (∀ (st : RtState) n ps b loc,
      evalStatement st (Stmt.fnDef n ps b loc) =
        Except.ok (applyTrace st (Stmt.fnDef n ps b loc), Outcome.normal)) ∧
    (∀ (st : RtState) node, (applyTrace st node).envStack = st.envStack ∧
      (applyTrace st node).output = st.output ∧
      (applyTrace st node).inputs = st.inputs) ∧
    runOutput "new qas\nq.loop 3 end\nq.print 1\n" "f" =
      some [Value.num (JsNumber.rat 1)] := by
  refine ⟨fun st tests alt loc => rfl, fun st c b loc => rfl,
    fun st t b loc => rfl, fun st n ps b loc => rfl,
    fun st node => ⟨applyTrace_envStack st node, applyTrace_output st node,
      applyTrace_inputs st node⟩, by decide⟩

/-! Claim C9. -/

/-- Claim C9 (confirmed): the PrintStatement reads the print slot from the
global frame at index 0, not via the innermost-outward lookup — with a
two-frame stack whose innermost frame rebinds print to a number, printing
still uses the global built-in — and after a set statement overwrites the
global print binding (the stack having depth 1), a following
PrintStatement invokes the overwritten non-function value, which is a host
TypeError rather than a print of the built-in. -/
theorem claim9 :
    evalStatement
      { envStack := [[("print", Value.builtinPrint)],
                     [("print", Value.num (JsNumber.rat 7))]]
        output := [], traceLog := [], inputs := [], trace := false }
      (Stmt.printS (Expr.numberLit (JsNumber.rat 3) ⟨⟨1, 1⟩, ⟨1, 1⟩⟩)
        ⟨⟨1, 1⟩, ⟨1, 1⟩⟩) =
      Except.ok
        ({ envStack := [[("print", Value.builtinPrint)],
                        [("print", Value.num (JsNumber.rat 7))]]
           output := [Value.num (JsNumber.rat 3)]
           traceLog := [], inputs := [], trace := false }, Outcome.normal) ∧
    evalStmts (createRuntime false [])
      [Stmt.setS "print" (Expr.numberLit (JsNumber.rat 5) ⟨⟨2, 1⟩, ⟨2, 1⟩⟩)
        ⟨⟨2, 1⟩, ⟨2, 1⟩⟩,
       Stmt.printS (Expr.numberLit (JsNumber.rat 1) ⟨⟨3, 1⟩, ⟨3, 1⟩⟩)
        ⟨⟨3, 1⟩, ⟨3, 1⟩⟩] =
      Except.error printNotFn := by
  exact ⟨by decide, by decide⟩

end QasT
